import Mathlib

/-!
# UStorePass and RISCVTargetInfo

A shallow embedding of two source files:

* `llvm/lib/Target/Mips/UStorePass.cpp`: the machine-function pass replacing
  capability stores by an offset increment followed by an uninitialized store;
* `clang/lib/Basic/Targets/RISCV.cpp`: the RISC-V target description
  (feature tokens, predefined macros, inline-assembly constraints).

Definitions come first, theorems afterwards.
-/

namespace UStore

/-! ## Machine IR -/

/-- An operand of a machine instruction: a register or an immediate. -/
inductive MachineOperand where
  | reg (r : Nat)
  | imm (v : Int)
  deriving DecidableEq, Repr

/-- A machine instruction: an opcode and an ordered operand list. -/
structure MachineInstr where
  Opcode : Nat
  Operands : List MachineOperand
  deriving DecidableEq, Repr

/-- A basic block is the ordered sequence of its instructions. -/
abbrev MachineBasicBlock := List MachineInstr

/-- A function is the ordered sequence of its basic blocks. -/
abbrev MachineFunction := List MachineBasicBlock

/-- The enumerators of the generated `Mips::` opcode enumeration that the pass
names.  The enumeration is produced by tablegen and is not part of the two
source files, so the numbering is a parameter.  Two facts about it are kept:
different enumerators have different values, and the uninitialized-store
opcodes are not the value `0` (which is the target-independent `PHI`). -/
structure MipsOpcodes where
  CAPSTORE8 : Nat
  CAPSTORE832 : Nat
  CAPSTORE16 : Nat
  CAPSTORE1632 : Nat
  CAPSTORE32 : Nat
  CAPSTORE3264 : Nat
  CAPSTORE64 : Nat
  UCAPSTORE8 : Nat
  UCAPSTORE832 : Nat
  UCAPSTORE16 : Nat
  UCAPSTORE1632 : Nat
  UCAPSTORE32 : Nat
  UCAPSTORE3264 : Nat
  UCAPSTORE64 : Nat
  CIncOffset : Nat
  distinct : [CAPSTORE8, CAPSTORE832, CAPSTORE16, CAPSTORE1632, CAPSTORE32,
    CAPSTORE3264, CAPSTORE64, UCAPSTORE8, UCAPSTORE832, UCAPSTORE16,
    UCAPSTORE1632, UCAPSTORE32, UCAPSTORE3264, UCAPSTORE64, CIncOffset].Nodup
  nonzero : 0 ∉ [UCAPSTORE8, UCAPSTORE832, UCAPSTORE16, UCAPSTORE1632,
    UCAPSTORE32, UCAPSTORE3264, UCAPSTORE64]

/-- A concrete numbering, used to evaluate the pass on examples. -/
def sampleOpcodes : MipsOpcodes where
  CAPSTORE8 := 101
  CAPSTORE832 := 102
  CAPSTORE16 := 103
  CAPSTORE1632 := 104
  CAPSTORE32 := 105
  CAPSTORE3264 := 106
  CAPSTORE64 := 107
  UCAPSTORE8 := 201
  UCAPSTORE832 := 202
  UCAPSTORE16 := 203
  UCAPSTORE1632 := 204
  UCAPSTORE32 := 205
  UCAPSTORE3264 := 206
  UCAPSTORE64 := 207
  CIncOffset := 300
  distinct := by decide
  nonzero := by decide

/-- The ways a run can stop without a result: an operand index past the
operand list (`getOperand` asserts), stepping an iterator before `begin()` or
dereferencing or advancing `end()`, and the iteration budget of the model. -/
inductive Fault where
  | operandOutOfRange
  | iteratorOutOfRange
  | outOfFuel
  deriving DecidableEq, Repr

/-- Source function `uStoreEquivalentOpcode`: the switch over `MI.getOpcode()`; `0` is the
`default:` result.  Case labels are pairwise different constants, so the
order of the tests is immaterial. -/
def uStoreEquivalentOpcode (E : MipsOpcodes) (MI : MachineInstr) : Nat :=
  if MI.Opcode = E.CAPSTORE8 then E.UCAPSTORE8
  else if MI.Opcode = E.CAPSTORE832 then E.UCAPSTORE832
  else if MI.Opcode = E.CAPSTORE16 then E.UCAPSTORE16
  else if MI.Opcode = E.CAPSTORE1632 then E.UCAPSTORE1632
  else if MI.Opcode = E.CAPSTORE32 then E.UCAPSTORE32
  else if MI.Opcode = E.CAPSTORE3264 then E.UCAPSTORE3264
  else if MI.Opcode = E.CAPSTORE64 then E.UCAPSTORE64
  else 0

/-- Accessor `MachineInstr::getOperand(i)`: the operand at index `i`; an index past
the operand list is a fault. -/
def getOperand (MI : MachineInstr) (i : Nat) : Except Fault MachineOperand :=
  match MI.Operands[i]? with
  | some MO => .ok MO
  | none => .error .operandOutOfRange

/-- A block together with an iterator `I` into it.  `before` holds the
instructions that precede `I`, the nearest one first; `rest` holds `*I` and
the instructions that follow it, and is empty when `I` is `end()`. -/
structure Cursor where
  before : List MachineInstr
  rest : List MachineInstr
  deriving DecidableEq, Repr

namespace Cursor

/-- The iterator `MBB.begin()`. -/
def begin (MBB : MachineBasicBlock) : Cursor := ⟨[], MBB⟩

/-- The block the cursor lives in, in program order. -/
def block (c : Cursor) : MachineBasicBlock := c.before.reverse ++ c.rest

/-- The loop condition `I != MBB.end()`. -/
def notAtEnd (c : Cursor) : Bool := !c.rest.isEmpty

/-- Insertion of an instruction before `I` (what `BuildMI(MBB, I, ...)` does
with the instruction it creates); `I` keeps designating the same
instruction. -/
def insertBefore (c : Cursor) (MI : MachineInstr) : Cursor :=
  ⟨MI :: c.before, c.rest⟩

/-- The call `MBB.erase(MI)` for the instruction `MI` that `I` designates: the
instruction leaves the block and the iterator returned designates its
successor. -/
def erase (c : Cursor) : Except Fault Cursor :=
  match c.rest with
  | [] => .error .iteratorOutOfRange
  | _ :: tl => .ok ⟨c.before, tl⟩

/-- The step `I--`: one instruction back; there is none before `begin()`. -/
def dec (c : Cursor) : Except Fault Cursor :=
  match c.before with
  | [] => .error .iteratorOutOfRange
  | MI :: bs => .ok ⟨bs, MI :: c.rest⟩

/-- The step `++I`: one instruction forward; `end()` cannot be advanced. -/
def inc (c : Cursor) : Except Fault Cursor :=
  match c.rest with
  | [] => .error .iteratorOutOfRange
  | MI :: tl => .ok ⟨MI :: c.before, tl⟩

end Cursor

/-- Source function `newUninitializedStore`: builds, before `I`, the instruction with opcode
`Opc` and the operands 3, 2, 0, 3 of `OldMi`, in this order. -/
def newUninitializedStore (OldMi : MachineInstr) (I : Cursor) (Opc : Nat) :
    Except Fault (MachineInstr × Cursor) := do
  let cb ← getOperand OldMi 3
  let offset ← getOperand OldMi 2
  let rs ← getOperand OldMi 0
  let cb2 ← getOperand OldMi 3
  let MI : MachineInstr := ⟨Opc, [cb, offset, rs, cb2]⟩
  pure (MI, I.insertBefore MI)

/-- Source function `newStoreOffset`: builds, before `I`, a `CIncOffset` with the operands
1, 3, 3 of `OldMi`, in this order. -/
def newStoreOffset (E : MipsOpcodes) (OldMi : MachineInstr) (I : Cursor) :
    Except Fault (MachineInstr × Cursor) := do
  let rt ← getOperand OldMi 1
  let cb ← getOperand OldMi 3
  let cb2 ← getOperand OldMi 3
  let MI : MachineInstr := ⟨E.CIncOffset, [rt, cb, cb2]⟩
  pure (MI, I.insertBefore MI)

/-- The state of the inner loop: the block with its iterator, and
`IsStoreReplaced`. -/
structure ScanState where
  I : Cursor
  IsStoreReplaced : Bool
  deriving DecidableEq, Repr

/-- One iteration of the inner loop, for `I != MBB.end()`: the loop body
followed by the `++I` of the loop header. -/
def scanStep (E : MipsOpcodes) (s : ScanState) : Except Fault ScanState :=
  match s.I.rest with
  | [] => .error .iteratorOutOfRange
  | MI :: _ =>
    let UOpc := uStoreEquivalentOpcode E MI
    if UOpc ≠ 0 then do
      let (_, I1) ← newStoreOffset E MI s.I
      let (_, I2) ← newUninitializedStore MI I1 UOpc
      let I3 ← I2.erase
      let I4 ← I3.dec
      let I5 ← I4.inc
      pure ⟨I5, true⟩
    else do
      let I1 ← s.I.inc
      pure ⟨I1, s.IsStoreReplaced⟩

/-- The inner loop `for (I = ...; I != MBB.end(); ++I)`, run for at most
`fuel` tests of the loop condition. -/
def scanLoop (E : MipsOpcodes) : Nat → ScanState → Except Fault ScanState
  | 0, _ => .error .outOfFuel
  | fuel + 1, s =>
    if s.I.notAtEnd then
      match scanStep E s with
      | .ok s1 => scanLoop E fuel s1
      | .error e => .error e
    else .ok s

/-- The outer loop over the blocks of the function, from the block list that
is still to be visited. -/
def scanBlocks (E : MipsOpcodes) (fuel : Nat) :
    List MachineBasicBlock → Bool → Except Fault (Bool × MachineFunction)
  | [], IsStoreReplaced => .ok (IsStoreReplaced, [])
  | MBB :: MBBs, IsStoreReplaced =>
    match scanLoop E fuel ⟨Cursor.begin MBB, IsStoreReplaced⟩ with
    | .ok s =>
      match scanBlocks E fuel MBBs s.IsStoreReplaced with
      | .ok (r, MF1) => .ok (r, s.I.block :: MF1)
      | .error e => .error e
    | .error e => .error e

/-- Source function `UStorePass::runOnMachineFunction`: the value returned and the function
as the pass leaves it.  `fuel` bounds the number of loop-condition tests spent
on one block. -/
def runOnMachineFunction (E : MipsOpcodes) (fuel : Nat) (MF : MachineFunction) :
    Except Fault (Bool × MachineFunction) :=
  scanBlocks E fuel MF false

/-! ## What the pass is expected to produce -/

/-- The opcodes of the store table: the case labels of
`uStoreEquivalentOpcode`. -/
def storeTable (E : MipsOpcodes) : List Nat :=
  [E.CAPSTORE8, E.CAPSTORE832, E.CAPSTORE16, E.CAPSTORE1632, E.CAPSTORE32,
    E.CAPSTORE3264, E.CAPSTORE64]

/-- The opcodes `uStoreEquivalentOpcode` maps the store table to, and the
opcode of the increment: the opcodes of inserted instructions. -/
def insertedOpcodes (E : MipsOpcodes) : List Nat :=
  [E.UCAPSTORE8, E.UCAPSTORE832, E.UCAPSTORE16, E.UCAPSTORE1632, E.UCAPSTORE32,
    E.UCAPSTORE3264, E.UCAPSTORE64, E.CIncOffset]

/-- Operand `i` of an instruction; only read below index
`MI.Operands.length`. -/
def operand (MI : MachineInstr) (i : Nat) : MachineOperand :=
  MI.Operands.getD i (.imm 0)

/-- The matched instructions of a block have the operands 0 to 3. -/
def WellShaped (E : MipsOpcodes) (MBB : MachineBasicBlock) : Prop :=
  ∀ MI ∈ MBB, MI.Opcode ∈ storeTable E → 4 ≤ MI.Operands.length

/-- The increment expected for a matched instruction:
`CIncOffset(op1, op3, op3)`. -/
def expectedIncrement (E : MipsOpcodes) (MI : MachineInstr) : MachineInstr :=
  ⟨E.CIncOffset, [operand MI 1, operand MI 3, operand MI 3]⟩

/-- The store expected for a matched instruction:
`U-opcode(op3, op2, op0, op3)`. -/
def expectedStore (E : MipsOpcodes) (MI : MachineInstr) : MachineInstr :=
  ⟨uStoreEquivalentOpcode E MI,
    [operand MI 3, operand MI 2, operand MI 0, operand MI 3]⟩

/-- What stands in the place of one instruction after the pass: the two
expected instructions for an opcode of the store table, the instruction itself
otherwise. -/
def replacement (E : MipsOpcodes) (MI : MachineInstr) : List MachineInstr :=
  if MI.Opcode ∈ storeTable E then [expectedIncrement E MI, expectedStore E MI]
  else [MI]

/-- The block expected after the pass: every instruction replaced in place
by its `replacement`. -/
def rewrittenBlock (E : MipsOpcodes) (MBB : MachineBasicBlock) :
    MachineBasicBlock :=
  MBB.flatMap (replacement E)

/-- The number of instructions of a block whose opcode is in the store
table. -/
def matchCount (E : MipsOpcodes) (MBB : MachineBasicBlock) : Nat :=
  MBB.countP (fun MI => decide (MI.Opcode ∈ storeTable E))

/-- A function used to evaluate the pass: three blocks, two matched stores. -/
def sampleFunction : MachineFunction :=
  [[⟨7, []⟩, ⟨101, [.reg 1, .reg 2, .imm 8, .reg 3]⟩, ⟨9, [.reg 5]⟩],
   [⟨107, [.reg 4, .reg 6, .imm 0, .reg 7, .reg 0]⟩],
   []]

/-- The reading of "the store is addressed through the incremented base with
a zero immediate offset" for a matched instruction `MI`: whenever the two
builders return the increment and the store, the capability-base operand of
the store (operand 0) is the register the increment writes (its operand 0),
and the immediate-offset operand of the store (operand 1) is zero. -/
def AddressedThroughIncrement (E : MipsOpcodes) (MI : MachineInstr) : Prop :=
  ∀ (I : Cursor) (Inc St : MachineInstr) (I1 I2 : Cursor),
    newStoreOffset E MI I = .ok (Inc, I1) →
    newUninitializedStore MI I1 (uStoreEquivalentOpcode E MI) = .ok (St, I2) →
    St.Operands[0]? = Inc.Operands[0]? ∧ St.Operands[1]? = some (.imm 0)

/-- The reading of "the rewrite table has exactly `n` entries": there are
`n` pairwise different opcodes such that `uStoreEquivalentOpcode` is non-zero
on exactly the instructions carrying one of them. -/
def TableHasEntries (E : MipsOpcodes) (n : Nat) : Prop :=
  ∃ l : List Nat, l.Nodup ∧ l.length = n ∧
    ∀ MI : MachineInstr, uStoreEquivalentOpcode E MI ≠ 0 ↔ MI.Opcode ∈ l

/-- The instructions the inner loop dereferences (`MachineInstr & MI = *I`),
one per iteration, in the order of the iterations; the iterations are those
of `scanLoop`. -/
def scanTrace (E : MipsOpcodes) : Nat → ScanState → List MachineInstr
  | 0, _ => []
  | fuel + 1, s =>
    if s.I.notAtEnd then
      match s.I.rest.head?, scanStep E s with
      | some MI, .ok s1 => MI :: scanTrace E fuel s1
      | some MI, .error _ => [MI]
      | none, _ => []
    else []

end UStore

namespace RISCV

/-! ## Target state -/

/-- The two architectures a RISC-V triple can name. -/
inductive ArchType where
  | riscv32
  | riscv64
  deriving DecidableEq, Repr

/-- The members of `RISCVTargetInfo` that the source file reads or writes.
The class is declared in `RISCV.h`, outside the source files at hand; the
fields below are the ones `RISCV.cpp` names.  `PointerWidth` is an 8-bit
unsigned member of `TargetInfo`, so `PointerWidth * 2` is computed after
integer promotion and does not wrap. -/
structure RISCVTargetInfo where
  Arch : ArchType
  PointerWidth : Nat
  HasM : Bool
  HasA : Bool
  HasF : Bool
  HasD : Bool
  HasC : Bool
  HasCheri : Bool
  CapSize : Nat
  CapabilityABI : Bool
  DataLayout : String
  deriving DecidableEq, Repr

/-! ## Predefined macros -/

/-- The value argument of a `defineMacro` call: left to the default of the
builder, a string literal, or a number rendered through `Twine`. -/
inductive MacroValue where
  | dflt
  | text (s : String)
  | number (n : Int)
  deriving DecidableEq, Repr

/-- The definitions a `MacroBuilder` has received, oldest first. -/
abbrev MacroBuilder := List (String × MacroValue)

/-- The call `Builder.defineMacro(Name, Value)`: one more definition. -/
def defineMacro (Builder : MacroBuilder) (Name : String) (Value : MacroValue) :
    MacroBuilder :=
  Builder ++ [(Name, Value)]

/-- Modelled from the spec: `getCHERICapabilityWidth` is declared in
`RISCV.h`; the capability-length macro is "equal to the capability width in
bits", the member `CapSize`. -/
def getCHERICapabilityWidth (T : RISCVTargetInfo) : Nat := T.CapSize

/-- Source function `RISCVTargetInfo::getTargetDefines`.  `CapTableABI` is the value of
`MCTargetOptions::cheriCapabilityTableABI()` and `Legacy` the enumerator it is
compared with, both as their integer value: the enumeration
`CheriCapabilityTableABI` is declared outside the source files at hand. -/
def getTargetDefines (Legacy CapTableABI : Nat) (T : RISCVTargetInfo)
    (Builder : MacroBuilder) : MacroBuilder :=
  let B := defineMacro Builder "__ELF__" .dflt
  let B := defineMacro B "__riscv" .dflt
  let Is64Bit := decide (T.Arch = ArchType.riscv64)
  let B := defineMacro B "__riscv_xlen" (.text (if Is64Bit then "64" else "32"))
  let B := defineMacro B "__riscv_cmodel_medlow" .dflt
  let B := defineMacro B "__riscv_float_abi_soft" .dflt
  let B :=
    if T.HasM then
      let B := defineMacro B "__riscv_mul" .dflt
      let B := defineMacro B "__riscv_div" .dflt
      defineMacro B "__riscv_muldiv" .dflt
    else B
  let B := if T.HasA then defineMacro B "__riscv_atomic" .dflt else B
  let B :=
    if T.HasF || T.HasD then
      let B := defineMacro B "__riscv_flen" (.text (if T.HasD then "64" else "32"))
      let B := defineMacro B "__riscv_fdiv" .dflt
      defineMacro B "__riscv_fsqrt" .dflt
    else B
  let B := if T.HasC then defineMacro B "__riscv_compressed" .dflt else B
  if T.HasCheri then
    let B :=
      if T.CapabilityABI then
        if CapTableABI ≠ Legacy then
          defineMacro B "__CHERI_CAPABILITY_TABLE__" (.number ((CapTableABI : Int) + 1))
        else B
      else B
    let B := defineMacro B "__CHERI_CAP_PERMISSION_GLOBAL__" (.number ((1 <<< 0 : Nat) : Int))
    let B := defineMacro B "__CHERI_CAP_PERMISSION_PERMIT_EXECUTE__"
      (.number ((1 <<< 1 : Nat) : Int))
    let B := defineMacro B "__CHERI_CAP_PERMISSION_PERMIT_LOAD__"
      (.number ((1 <<< 2 : Nat) : Int))
    let B := defineMacro B "__CHERI_CAP_PERMISSION_PERMIT_STORE__"
      (.number ((1 <<< 3 : Nat) : Int))
    let B := defineMacro B "__CHERI_CAP_PERMISSION_PERMIT_LOAD_CAPABILITY__"
      (.number ((1 <<< 4 : Nat) : Int))
    let B := defineMacro B "__CHERI_CAP_PERMISSION_PERMIT_STORE_CAPABILITY__"
      (.number ((1 <<< 5 : Nat) : Int))
    let B := defineMacro B "__CHERI_CAP_PERMISSION_PERMIT_STORE_LOCAL__"
      (.number ((1 <<< 6 : Nat) : Int))
    let B := defineMacro B "__CHERI_CAP_PERMISSION_PERMIT_SEAL__"
      (.number ((1 <<< 7 : Nat) : Int))
    let B := defineMacro B "__CHERI_CAP_PERMISSION_PERMIT_CCALL__"
      (.number ((1 <<< 8 : Nat) : Int))
    let B := defineMacro B "__CHERI_CAP_PERMISSION_PERMIT_UNSEAL__"
      (.number ((1 <<< 9 : Nat) : Int))
    let B := defineMacro B "__CHERI_CAP_PERMISSION_ACCESS_SYSTEM_REGISTERS__"
      (.number ((1 <<< 10 : Nat) : Int))
    defineMacro B "__riscv_clen" (.number (getCHERICapabilityWidth T : Int))
  else B

/-! ## Feature tokens -/

/-- The body of the loop of `handleTargetFeatures`, for one token. -/
def handleFeature (T : RISCVTargetInfo) (Feature : String) : RISCVTargetInfo :=
  if Feature = "+m" then { T with HasM := true }
  else if Feature = "+a" then { T with HasA := true }
  else if Feature = "+f" then { T with HasF := true }
  else if Feature = "+d" then { T with HasD := true }
  else if Feature = "+c" then { T with HasC := true }
  else if Feature = "+xcheri" then
    { T with HasCheri := true, CapSize := T.PointerWidth * 2 }
  else T

/-- Modelled from the spec: `setDataLayout` is declared in `RISCV.h`; it is
the finalize step run once after all tokens are applied, deriving the data
layout from the state.  The derivation `layoutOf` is a parameter. -/
def setDataLayout (layoutOf : RISCVTargetInfo → String) (T : RISCVTargetInfo) :
    RISCVTargetInfo :=
  { T with DataLayout := layoutOf T }

/-- Source function `RISCVTargetInfo::handleTargetFeatures`: the value returned and the
state it leaves. -/
def handleTargetFeatures (layoutOf : RISCVTargetInfo → String)
    (Features : List String) (T : RISCVTargetInfo) : Bool × RISCVTargetInfo :=
  let T1 := Features.foldl handleFeature T
  (true, setDataLayout layoutOf T1)

/-- Source function `RISCVTargetInfo::hasFeature`. -/
def hasFeature (T : RISCVTargetInfo) (Feature : String) : Bool :=
  let Is64Bit := decide (T.Arch = ArchType.riscv64)
  if Feature = "riscv" then true
  else if Feature = "riscv32" then !Is64Bit
  else if Feature = "riscv64" then Is64Bit
  else if Feature = "m" then T.HasM
  else if Feature = "a" then T.HasA
  else if Feature = "f" then T.HasF
  else if Feature = "d" then T.HasD
  else if Feature = "c" then T.HasC
  else if Feature = "xcheri" then T.HasCheri
  else false

/-! ## Register names -/

/-- An entry of the alias table (`TargetInfo::GCCRegAlias`): the aliases and
the register they stand for. -/
structure GCCRegAlias where
  Aliases : List String
  Register : String
  deriving DecidableEq, Repr

/-- Source function `RISCVTargetInfo::getGCCRegNames`: the table
`GCCRegNames`. -/
def getGCCRegNames : List String :=
  ["x0",  "x1",  "x2",  "x3",  "x4",  "x5",  "x6",  "x7",
   "x8",  "x9",  "x10", "x11", "x12", "x13", "x14", "x15",
   "x16", "x17", "x18", "x19", "x20", "x21", "x22", "x23",
   "x24", "x25", "x26", "x27", "x28", "x29", "x30", "x31",
   "c0",  "c1",  "c2",  "c3",  "c4",  "c5",  "c6",  "c7",
   "c8",  "c9",  "c10", "c11", "c12", "c13", "c14", "c15",
   "c16", "c17", "c18", "c19", "c20", "c21", "c22", "c23",
   "c24", "c25", "c26", "c27", "c28", "c29", "c30", "c31"]

/-- Source function `RISCVTargetInfo::getGCCRegAliases`: the table
`GCCRegAliases`. -/
def getGCCRegAliases : List GCCRegAlias :=
  [⟨["zero"], "x0"⟩, ⟨["ra"], "x1"⟩,  ⟨["sp"], "x2"⟩,   ⟨["gp"], "x3"⟩,
   ⟨["tp"], "x4"⟩,   ⟨["t0"], "x5"⟩,  ⟨["t1"], "x6"⟩,   ⟨["t2"], "x7"⟩,
   ⟨["s0"], "x8"⟩,   ⟨["s1"], "x9"⟩,  ⟨["a0"], "x10"⟩,  ⟨["a1"], "x11"⟩,
   ⟨["a2"], "x12"⟩,  ⟨["a3"], "x13"⟩, ⟨["a4"], "x14"⟩,  ⟨["a5"], "x15"⟩,
   ⟨["a6"], "x16"⟩,  ⟨["a7"], "x17"⟩, ⟨["s2"], "x18"⟩,  ⟨["s3"], "x19"⟩,
   ⟨["s4"], "x20"⟩,  ⟨["s5"], "x21"⟩, ⟨["s6"], "x22"⟩,  ⟨["s7"], "x23"⟩,
   ⟨["s8"], "x24"⟩,  ⟨["s9"], "x25"⟩, ⟨["s10"], "x26"⟩, ⟨["s11"], "x27"⟩,
   ⟨["t3"], "x28"⟩,  ⟨["t4"], "x29"⟩, ⟨["t5"], "x30"⟩,  ⟨["t6"], "x31"⟩,
   ⟨["cnull"], "c0"⟩, ⟨["cra"], "c1"⟩,  ⟨["csp"], "c2"⟩,   ⟨["cgp"], "c3"⟩,
   ⟨["ctp"], "c4"⟩,   ⟨["ct0"], "c5"⟩,  ⟨["ct1"], "c6"⟩,   ⟨["ct2"], "c7"⟩,
   ⟨["cs0"], "c8"⟩,   ⟨["cs1"], "c9"⟩,  ⟨["ca0"], "c10"⟩,  ⟨["ca1"], "c11"⟩,
   ⟨["ca2"], "c12"⟩,  ⟨["ca3"], "c13"⟩, ⟨["ca4"], "c15"⟩,  ⟨["ca5"], "c15"⟩,
   ⟨["ca6"], "c16"⟩,  ⟨["ca7"], "c17"⟩, ⟨["cs2"], "c18"⟩,  ⟨["cs3"], "c19"⟩,
   ⟨["cs4"], "c20"⟩,  ⟨["cs5"], "c21"⟩, ⟨["cs6"], "c22"⟩,  ⟨["cs7"], "c23"⟩,
   ⟨["cs8"], "c24"⟩,  ⟨["cs9"], "c25"⟩, ⟨["cs10"], "c26"⟩, ⟨["cs11"], "c27"⟩,
   ⟨["ct3"], "c28"⟩,  ⟨["ct4"], "c29"⟩, ⟨["ct5"], "c30"⟩,  ⟨["ct6"], "c31"⟩]

/-- The number of entries of the alias table whose canonical target is the
register `Name`. -/
def aliasEntriesFor (Name : String) : Nat :=
  (getGCCRegAliases.map (fun A => A.Register)).count Name

/-! ## Inline-assembly constraints -/

/-- Modelled from the spec: `TargetInfo::ConstraintInfo` is declared outside
the source files at hand.  A constraint maps to "an inclusive numeric
immediate range": the record keeps whether an immediate is required and the
two bounds. -/
structure ConstraintInfo where
  RequiresImmediate : Bool
  ImmMin : Int
  ImmMax : Int
  deriving DecidableEq, Repr

/-- Modelled from the spec: `Info.setRequiresImmediate(Min, Max)` records the
inclusive range from `Min` to `Max`. -/
def setRequiresImmediate (_Info : ConstraintInfo) (Min Max : Int) : ConstraintInfo :=
  ⟨true, Min, Max⟩

/-- Modelled from the spec: `Info.setRequiresImmediate(Exact)` records the
"exact" value as the range from `Exact` to `Exact`. -/
def setRequiresImmediateExact (Info : ConstraintInfo) (Exact : Int) : ConstraintInfo :=
  setRequiresImmediate Info Exact Exact

/-- Modelled from the spec: an integer satisfies the recorded range when it
lies between the two bounds, both included. -/
def isValidAsmImmediate (Info : ConstraintInfo) (Value : Int) : Bool :=
  decide (Info.ImmMin ≤ Value) && decide (Value ≤ Info.ImmMax)

/-- Source function `RISCVTargetInfo::validateAsmConstraint`, on the character `*Name`: the
value returned and the constraint info as the call leaves it. -/
def validateAsmConstraint (Name : Char) (Info : ConstraintInfo) : Bool × ConstraintInfo :=
  if Name = 'I' then (true, setRequiresImmediate Info (-2048) 2047)
  else if Name = 'J' then (true, setRequiresImmediateExact Info 0)
  else if Name = 'K' then (true, setRequiresImmediate Info 0 31)
  else (false, Info)

/-- The state expected after the tokens of `Features` have been applied to
`T`, read off the token set: a flag is set when it was set before or its
token occurs, and the capability width is twice the pointer width when the
capability token occurs. -/
def featuresApplied (T : RISCVTargetInfo) (Features : List String) : RISCVTargetInfo :=
  { T with
    HasM := T.HasM || decide ("+m" ∈ Features)
    HasA := T.HasA || decide ("+a" ∈ Features)
    HasF := T.HasF || decide ("+f" ∈ Features)
    HasD := T.HasD || decide ("+d" ∈ Features)
    HasC := T.HasC || decide ("+c" ∈ Features)
    HasCheri := T.HasCheri || decide ("+xcheri" ∈ Features)
    CapSize := if "+xcheri" ∈ Features then T.PointerWidth * 2 else T.CapSize }

/-- The names of the macros `getTargetDefines` emits, in emission order. -/
def emittedNames (Legacy CapTableABI : Nat) (T : RISCVTargetInfo) : List String :=
  (getTargetDefines Legacy CapTableABI T []).map Prod.fst

/-- Two states agree on the six extension flags. -/
def SameFlags (T1 T2 : RISCVTargetInfo) : Prop :=
  T1.HasM = T2.HasM ∧ T1.HasA = T2.HasA ∧ T1.HasF = T2.HasF ∧ T1.HasD = T2.HasD ∧
  T1.HasC = T2.HasC ∧ T1.HasCheri = T2.HasCheri

/-- The tokens `handleTargetFeatures` compares a feature with. -/
def recognisedTokens : List String :=
  ["+m", "+a", "+f", "+d", "+c", "+xcheri"]

/-- A 32-bit target with no extension, used to evaluate the definitions. -/
def sampleTarget : RISCVTargetInfo :=
  ⟨.riscv32, 32, false, false, false, false, false, false, 0, false, ""⟩

/-- A 32-bit target with the capability extension and the capability ABI. -/
def sampleCheriTarget : RISCVTargetInfo :=
  ⟨.riscv32, 32, false, false, false, false, false, true, 64, true, ""⟩

end RISCV

/-! # Theorems -/

namespace UStore

/-! ## The opcode table -/

theorem storeTable_disjoint (E : MipsOpcodes) :
    List.Disjoint (storeTable E) (insertedOpcodes E) := by
  have h : (storeTable E ++ insertedOpcodes E).Nodup := E.distinct
  exact (List.nodup_append.1 h).2.2

theorem uStoreEquivalentOpcode_mem (E : MipsOpcodes) (MI : MachineInstr)
    (h : MI.Opcode ∈ storeTable E) :
    uStoreEquivalentOpcode E MI ∈ [E.UCAPSTORE8, E.UCAPSTORE832, E.UCAPSTORE16,
      E.UCAPSTORE1632, E.UCAPSTORE32, E.UCAPSTORE3264, E.UCAPSTORE64] := by
  unfold uStoreEquivalentOpcode
  split_ifs <;> simp_all [storeTable]

theorem uStoreEquivalentOpcode_ne_zero_iff (E : MipsOpcodes) (MI : MachineInstr) :
    uStoreEquivalentOpcode E MI ≠ 0 ↔ MI.Opcode ∈ storeTable E := by
  constructor
  · unfold uStoreEquivalentOpcode
    split_ifs <;> simp_all [storeTable]
  · intro h h0
    have hm := uStoreEquivalentOpcode_mem E MI h
    rw [h0] at hm
    exact E.nonzero hm

theorem uStoreEquivalentOpcode_inserted (E : MipsOpcodes) (MI : MachineInstr)
    (h : MI.Opcode ∈ storeTable E) :
    uStoreEquivalentOpcode E MI ∈ insertedOpcodes E := by
  have hm := uStoreEquivalentOpcode_mem E MI h
  simp only [insertedOpcodes]
  simp only [List.mem_cons, List.mem_singleton, List.not_mem_nil, or_false] at hm ⊢
  tauto

/-! ## One iteration and the loops -/

theorem getOperand_ok (MI : MachineInstr) (i : Nat) (h : i < MI.Operands.length) :
    getOperand MI i = .ok (operand MI i) := by
  simp [getOperand, operand, List.getD, List.getElem?_eq_getElem h]

theorem newStoreOffset_ok (E : MipsOpcodes) (MI : MachineInstr) (I : Cursor)
    (h : 4 ≤ MI.Operands.length) :
    newStoreOffset E MI I
      = .ok (expectedIncrement E MI, I.insertBefore (expectedIncrement E MI)) := by
  unfold newStoreOffset
  rw [getOperand_ok MI 1 (by omega), getOperand_ok MI 3 (by omega)]
  rfl

theorem newUninitializedStore_ok (MI : MachineInstr) (I : Cursor) (Opc : Nat)
    (h : 4 ≤ MI.Operands.length) :
    newUninitializedStore MI I Opc
      = .ok (⟨Opc, [operand MI 3, operand MI 2, operand MI 0, operand MI 3]⟩,
          I.insertBefore
            ⟨Opc, [operand MI 3, operand MI 2, operand MI 0, operand MI 3]⟩) := by
  unfold newUninitializedStore
  rw [getOperand_ok MI 3 (by omega), getOperand_ok MI 2 (by omega),
    getOperand_ok MI 0 (by omega)]
  rfl

theorem scanStep_matched (E : MipsOpcodes) (bef tl : List MachineInstr)
    (MI : MachineInstr) (b : Bool) (hm : MI.Opcode ∈ storeTable E)
    (h : 4 ≤ MI.Operands.length) :
    scanStep E ⟨⟨bef, MI :: tl⟩, b⟩
      = .ok ⟨⟨expectedStore E MI :: expectedIncrement E MI :: bef, tl⟩, true⟩ := by
  have hne : uStoreEquivalentOpcode E MI ≠ 0 :=
    (uStoreEquivalentOpcode_ne_zero_iff E MI).2 hm
  simp only [scanStep, hne, ne_eq, not_false_eq_true, if_true]
  rw [newStoreOffset_ok E MI _ h]
  simp only [bind, Except.bind]
  rw [newUninitializedStore_ok MI _ _ h]
  rfl

theorem scanStep_unmatched (E : MipsOpcodes) (bef tl : List MachineInstr)
    (MI : MachineInstr) (b : Bool) (hm : MI.Opcode ∉ storeTable E) :
    scanStep E ⟨⟨bef, MI :: tl⟩, b⟩ = .ok ⟨⟨MI :: bef, tl⟩, b⟩ := by
  have he : uStoreEquivalentOpcode E MI = 0 := by
    by_contra hne
    exact hm ((uStoreEquivalentOpcode_ne_zero_iff E MI).1 hne)
  simp only [scanStep, he, ne_eq, not_true_eq_false, if_false]
  rfl

/-- The inner loop, from any iterator position: it reaches `end()`, having
put the replacement of every instruction from the position on in its place.
The flag is raised exactly when one of them was matched. -/
theorem scanLoop_ok (E : MipsOpcodes) :
    ∀ (rest bef : List MachineInstr) (b : Bool) (fuel : Nat),
      WellShaped E rest → rest.length < fuel →
      scanLoop E fuel ⟨⟨bef, rest⟩, b⟩
        = .ok ⟨⟨(rewrittenBlock E rest).reverse ++ bef, []⟩,
            b || decide (0 < matchCount E rest)⟩ := by
  intro rest
  induction rest with
  | nil =>
    intro bef b fuel _ hf
    cases fuel with
    | zero => simp at hf
    | succ n => simp [scanLoop, Cursor.notAtEnd, rewrittenBlock, matchCount]
  | cons MI tl ih =>
    intro bef b fuel hw hf
    cases fuel with
    | zero => simp at hf
    | succ n =>
      have hw1 : WellShaped E tl := fun x hx => hw x (List.mem_cons_of_mem _ hx)
      have hf1 : tl.length < n := by simpa using hf
      by_cases hm : MI.Opcode ∈ storeTable E
      · have h4 := hw MI (List.mem_cons_self _ _) hm
        simp only [scanLoop, Cursor.notAtEnd, List.isEmpty_cons, Bool.not_false, if_true,
          scanStep_matched E bef tl MI b hm h4]
        rw [ih _ _ n hw1 hf1]
        simp [rewrittenBlock, replacement, hm, matchCount, List.countP_cons]
      · simp only [scanLoop, Cursor.notAtEnd, List.isEmpty_cons, Bool.not_false, if_true,
          scanStep_unmatched E bef tl MI b hm]
        rw [ih _ _ n hw1 hf1]
        simp [rewrittenBlock, replacement, hm, matchCount, List.countP_cons]

/-- The outer loop: every block is replaced by its rewritten form, and the
flag is raised exactly when some block held a matched instruction. -/
theorem scanBlocks_ok (E : MipsOpcodes) (fuel : Nat) :
    ∀ (MF : MachineFunction) (b : Bool),
      (∀ MBB ∈ MF, WellShaped E MBB) → (∀ MBB ∈ MF, MBB.length < fuel) →
      scanBlocks E fuel MF b
        = .ok (b || MF.any (fun MBB => decide (0 < matchCount E MBB)),
            MF.map (rewrittenBlock E)) := by
  intro MF
  induction MF with
  | nil => intro b _ _; simp [scanBlocks]
  | cons MBB MBBs ih =>
    intro b hw hf
    have h1 := scanLoop_ok E MBB [] b fuel (hw MBB (List.mem_cons_self _ _))
      (hf MBB (List.mem_cons_self _ _))
    have h2 := ih (b || decide (0 < matchCount E MBB))
      (fun x hx => hw x (List.mem_cons_of_mem _ hx))
      (fun x hx => hf x (List.mem_cons_of_mem _ hx))
    simp only [scanBlocks, Cursor.begin, h1, h2]
    simp [Cursor.block, Bool.or_assoc]

/-! ## Properties of the rewritten block -/

theorem replacement_not_in_table (E : MipsOpcodes) (MI x : MachineInstr)
    (hx : x ∈ replacement E MI) : x.Opcode ∉ storeTable E := by
  unfold replacement at hx
  split_ifs at hx with hm
  · intro hin
    have hd := storeTable_disjoint E
    simp only [List.mem_cons, List.mem_singleton, List.not_mem_nil, or_false] at hx
    rcases hx with rfl | rfl
    · exact hd hin (by simp [expectedIncrement, insertedOpcodes])
    · exact hd hin (uStoreEquivalentOpcode_inserted E MI hm)
  · simp only [List.mem_singleton] at hx
    subst hx
    exact hm

theorem rewrittenBlock_not_in_table (E : MipsOpcodes) (MBB : MachineBasicBlock)
    (x : MachineInstr) (hx : x ∈ rewrittenBlock E MBB) : x.Opcode ∉ storeTable E := by
  simp only [rewrittenBlock, List.mem_flatMap] at hx
  obtain ⟨MI, _, h⟩ := hx
  exact replacement_not_in_table E MI x h

theorem rewrittenBlock_of_no_match (E : MipsOpcodes) :
    ∀ (MBB : MachineBasicBlock), (∀ MI ∈ MBB, MI.Opcode ∉ storeTable E) →
      rewrittenBlock E MBB = MBB ∧ matchCount E MBB = 0 := by
  intro MBB
  induction MBB with
  | nil => intro _; simp [rewrittenBlock, matchCount]
  | cons MI tl ih =>
    intro h
    have hm := h MI (List.mem_cons_self _ _)
    have ht := ih (fun x hx => h x (List.mem_cons_of_mem _ hx))
    simp only [rewrittenBlock, matchCount] at ht ⊢
    simp [replacement, hm, ht.1, ht.2, List.countP_cons]

theorem rewrittenBlock_length (E : MipsOpcodes) :
    ∀ (MBB : MachineBasicBlock),
      (rewrittenBlock E MBB).length = MBB.length + matchCount E MBB := by
  intro MBB
  induction MBB with
  | nil => simp [rewrittenBlock, matchCount]
  | cons MI tl ih =>
    simp only [rewrittenBlock, matchCount] at ih ⊢
    by_cases hm : MI.Opcode ∈ storeTable E
    · simp [replacement, hm, ih, List.countP_cons]; omega
    · simp [replacement, hm, ih, List.countP_cons]; omega

theorem matchCount_pos_iff (E : MipsOpcodes) (MBB : MachineBasicBlock) :
    0 < matchCount E MBB ↔ ∃ MI ∈ MBB, uStoreEquivalentOpcode E MI ≠ 0 := by
  simp only [matchCount, List.countP_pos_iff, decide_eq_true_eq]
  constructor
  · rintro ⟨MI, h1, h2⟩
    exact ⟨MI, h1, (uStoreEquivalentOpcode_ne_zero_iff E MI).2 h2⟩
  · rintro ⟨MI, h1, h2⟩
    exact ⟨MI, h1, (uStoreEquivalentOpcode_ne_zero_iff E MI).1 h2⟩

/-! ## The pass -/

/-- C1: for a function whose matched instructions have the operands 0 to 3
and a loop budget above every block length, `runOnMachineFunction` returns,
and every block it leaves is the original block with each instruction of the
store table replaced in place by `CIncOffset(op1, op3, op3)` followed by
`U-opcode(op3, op2, op0, op3)`, every other instruction kept where it was; no
instruction of the store table is left. -/
theorem runOnMachineFunction_rewrites (E : MipsOpcodes) (fuel : Nat)
    (MF : MachineFunction) (hshape : ∀ MBB ∈ MF, WellShaped E MBB)
    (hfuel : ∀ MBB ∈ MF, MBB.length < fuel) :
    ∃ r MF1, runOnMachineFunction E fuel MF = .ok (r, MF1) ∧
      MF1 = MF.map (fun MBB => MBB.flatMap (fun MI =>
        if MI.Opcode ∈ storeTable E then
          [⟨E.CIncOffset, [operand MI 1, operand MI 3, operand MI 3]⟩,
           ⟨uStoreEquivalentOpcode E MI,
             [operand MI 3, operand MI 2, operand MI 0, operand MI 3]⟩]
        else [MI])) ∧
      ∀ MBB1 ∈ MF1, ∀ MI ∈ MBB1, MI.Opcode ∉ storeTable E := by
  refine ⟨_, _, scanBlocks_ok E fuel MF false hshape hfuel, rfl, ?_⟩
  intro MBB1 h1 MI hMI
  obtain ⟨MBB, _, rfl⟩ := List.mem_map.1 h1
  exact rewrittenBlock_not_in_table E MBB MI hMI

theorem runOnMachineFunction_rewrites_witness :
    (∀ MBB ∈ sampleFunction, WellShaped sampleOpcodes MBB) ∧
    (∀ MBB ∈ sampleFunction, MBB.length < 4) ∧
    ∃ r MF1, runOnMachineFunction sampleOpcodes 4 sampleFunction = .ok (r, MF1) ∧
      MF1 = sampleFunction.map (fun MBB => MBB.flatMap (fun MI =>
        if MI.Opcode ∈ storeTable sampleOpcodes then
          [⟨sampleOpcodes.CIncOffset, [operand MI 1, operand MI 3, operand MI 3]⟩,
           ⟨uStoreEquivalentOpcode sampleOpcodes MI,
             [operand MI 3, operand MI 2, operand MI 0, operand MI 3]⟩]
        else [MI])) ∧
      ∀ MBB1 ∈ MF1, ∀ MI ∈ MBB1, MI.Opcode ∉ storeTable sampleOpcodes :=
  ⟨by unfold WellShaped; decide, by decide,
    runOnMachineFunction_rewrites sampleOpcodes 4 sampleFunction
      (by unfold WellShaped; decide) (by decide)⟩

/-- C2, as stated, fails: for the store `CAPSTORE8 r1, r2, 8(r3)` the
emitted store has base `r3` while the increment writes `r2`, and its
immediate is `8`, not zero. -/
theorem addressedThroughIncrement_fails :
    ¬ AddressedThroughIncrement sampleOpcodes
        ⟨101, [.reg 1, .reg 2, .imm 8, .reg 3]⟩ ∧
    ∃ Inc St I1 I2,
      newStoreOffset sampleOpcodes ⟨101, [.reg 1, .reg 2, .imm 8, .reg 3]⟩ ⟨[], []⟩
        = .ok (Inc, I1) ∧
      newUninitializedStore ⟨101, [.reg 1, .reg 2, .imm 8, .reg 3]⟩ I1
        (uStoreEquivalentOpcode sampleOpcodes ⟨101, [.reg 1, .reg 2, .imm 8, .reg 3]⟩)
        = .ok (St, I2) ∧
      Inc.Operands[0]? = some (.reg 2) ∧ St.Operands[0]? = some (.reg 3) ∧
      St.Operands[1]? = some (.imm 8) := by
  refine ⟨fun h => ?_, _, _, _, _, rfl, rfl, rfl, rfl, rfl⟩
  have h1 := h ⟨[], []⟩ _ _ _ _ rfl rfl
  exact absurd h1.2 (by decide)

/-- C2, amended: for a matched instruction with operands `o0, o1, o2, o3, ...`
the increment is `CIncOffset(o1, o3, o3)` and the store emitted after it is
`U-opcode(o3, o2, o0, o3)`: the capability base of the store is `o3`, the
operand the increment reads as base and as amount (the increment writes
`o1`), and its immediate offset is the original offset `o2`. -/
theorem newUninitializedStore_operands (E : MipsOpcodes) (Opc : Nat)
    (o0 o1 o2 o3 : MachineOperand) (more : List MachineOperand) (I : Cursor) :
    newStoreOffset E ⟨Opc, o0 :: o1 :: o2 :: o3 :: more⟩ I
      = .ok (⟨E.CIncOffset, [o1, o3, o3]⟩,
          I.insertBefore ⟨E.CIncOffset, [o1, o3, o3]⟩) ∧
    newUninitializedStore ⟨Opc, o0 :: o1 :: o2 :: o3 :: more⟩
        (I.insertBefore ⟨E.CIncOffset, [o1, o3, o3]⟩)
        (uStoreEquivalentOpcode E ⟨Opc, o0 :: o1 :: o2 :: o3 :: more⟩)
      = .ok (⟨uStoreEquivalentOpcode E ⟨Opc, o0 :: o1 :: o2 :: o3 :: more⟩,
            [o3, o2, o0, o3]⟩,
          (I.insertBefore ⟨E.CIncOffset, [o1, o3, o3]⟩).insertBefore
            ⟨uStoreEquivalentOpcode E ⟨Opc, o0 :: o1 :: o2 :: o3 :: more⟩,
              [o3, o2, o0, o3]⟩) := by
  constructor
  · rw [newStoreOffset_ok E _ I (by simp)]
    rfl
  · rw [newUninitializedStore_ok _ _ _ (by simp)]
    rfl

/-- C3: a second run on the output of the first returns `false` and leaves
every block as the first run left it. -/
theorem runOnMachineFunction_idempotent (E : MipsOpcodes) (fuel fuel2 : Nat)
    (MF : MachineFunction) (hshape : ∀ MBB ∈ MF, WellShaped E MBB)
    (hfuel : ∀ MBB ∈ MF, MBB.length < fuel)
    (hfuel2 : ∀ MBB ∈ MF, 2 * MBB.length < fuel2) :
    ∃ r MF1, runOnMachineFunction E fuel MF = .ok (r, MF1) ∧
      runOnMachineFunction E fuel2 MF1 = .ok (false, MF1) := by
  refine ⟨_, _, scanBlocks_ok E fuel MF false hshape hfuel, ?_⟩
  have hno : ∀ MBB1 ∈ MF.map (rewrittenBlock E), ∀ MI ∈ MBB1,
      MI.Opcode ∉ storeTable E := by
    intro MBB1 h1 MI hMI
    obtain ⟨MBB, _, rfl⟩ := List.mem_map.1 h1
    exact rewrittenBlock_not_in_table E MBB MI hMI
  have hshape2 : ∀ MBB1 ∈ MF.map (rewrittenBlock E), WellShaped E MBB1 :=
    fun MBB1 h1 MI hMI hin => absurd hin (hno MBB1 h1 MI hMI)
  have hlen : ∀ MBB1 ∈ MF.map (rewrittenBlock E), MBB1.length < fuel2 := by
    intro MBB1 h1
    obtain ⟨MBB, hMBB, rfl⟩ := List.mem_map.1 h1
    have hc : matchCount E MBB ≤ MBB.length := List.countP_le_length _
    have := hfuel2 MBB hMBB
    rw [rewrittenBlock_length]
    omega
  have h2 := scanBlocks_ok E fuel2 (MF.map (rewrittenBlock E)) false hshape2 hlen
  have hany : (MF.map (rewrittenBlock E)).any
      (fun MBB => decide (0 < matchCount E MBB)) = false := by
    rw [List.any_eq_false]
    intro MBB1 h1
    simp [(rewrittenBlock_of_no_match E MBB1 (hno MBB1 h1)).2]
  have hmap : (MF.map (rewrittenBlock E)).map (rewrittenBlock E)
      = MF.map (rewrittenBlock E) := by
    conv_rhs => rw [← List.map_id (MF.map (rewrittenBlock E))]
    apply List.map_congr_left
    intro MBB1 h1
    exact (rewrittenBlock_of_no_match E MBB1 (hno MBB1 h1)).1
  rw [hany, hmap] at h2
  exact h2

theorem runOnMachineFunction_idempotent_witness :
    (∀ MBB ∈ sampleFunction, WellShaped sampleOpcodes MBB) ∧
    (∀ MBB ∈ sampleFunction, MBB.length < 4) ∧
    (∀ MBB ∈ sampleFunction, 2 * MBB.length < 7) ∧
    ∃ r MF1, runOnMachineFunction sampleOpcodes 4 sampleFunction = .ok (r, MF1) ∧
      runOnMachineFunction sampleOpcodes 7 MF1 = .ok (false, MF1) :=
  ⟨by unfold WellShaped; decide, by decide, by decide,
    runOnMachineFunction_idempotent sampleOpcodes 4 7 sampleFunction
      (by unfold WellShaped; decide) (by decide) (by decide)⟩

/-- C4: the value returned is `true` exactly when some instruction of some
block has a non-zero `uStoreEquivalentOpcode`. -/
theorem runOnMachineFunction_changed_iff (E : MipsOpcodes) (fuel : Nat)
    (MF : MachineFunction) (hshape : ∀ MBB ∈ MF, WellShaped E MBB)
    (hfuel : ∀ MBB ∈ MF, MBB.length < fuel) :
    ∃ r MF1, runOnMachineFunction E fuel MF = .ok (r, MF1) ∧
      (r = true ↔ ∃ MBB ∈ MF, ∃ MI ∈ MBB, uStoreEquivalentOpcode E MI ≠ 0) := by
  refine ⟨_, _, scanBlocks_ok E fuel MF false hshape hfuel, ?_⟩
  simp only [Bool.false_or, List.any_eq_true, decide_eq_true_eq, matchCount_pos_iff]

theorem runOnMachineFunction_changed_iff_witness :
    (∀ MBB ∈ sampleFunction, WellShaped sampleOpcodes MBB) ∧
    (∀ MBB ∈ sampleFunction, MBB.length < 4) ∧
    ∃ r MF1, runOnMachineFunction sampleOpcodes 4 sampleFunction = .ok (r, MF1) ∧
      (r = true ↔ ∃ MBB ∈ sampleFunction, ∃ MI ∈ MBB,
        uStoreEquivalentOpcode sampleOpcodes MI ≠ 0) :=
  ⟨by unfold WellShaped; decide, by decide,
    runOnMachineFunction_changed_iff sampleOpcodes 4 sampleFunction
      (by unfold WellShaped; decide) (by decide)⟩

/-- C5: block by block, the number of instructions after the pass is the
number before plus the number of instructions of the original block whose
opcode is in the store table; the number of blocks does not change. -/
theorem runOnMachineFunction_lengths (E : MipsOpcodes) (fuel : Nat)
    (MF : MachineFunction) (hshape : ∀ MBB ∈ MF, WellShaped E MBB)
    (hfuel : ∀ MBB ∈ MF, MBB.length < fuel) :
    ∃ r MF1, runOnMachineFunction E fuel MF = .ok (r, MF1) ∧
      MF1.map List.length = MF.map (fun MBB => MBB.length + matchCount E MBB) := by
  refine ⟨_, _, scanBlocks_ok E fuel MF false hshape hfuel, ?_⟩
  rw [List.map_map]
  apply List.map_congr_left
  intro MBB _
  exact rewrittenBlock_length E MBB

theorem runOnMachineFunction_lengths_witness :
    (∀ MBB ∈ sampleFunction, WellShaped sampleOpcodes MBB) ∧
    (∀ MBB ∈ sampleFunction, MBB.length < 4) ∧
    ∃ r MF1, runOnMachineFunction sampleOpcodes 4 sampleFunction = .ok (r, MF1) ∧
      MF1.map List.length
        = sampleFunction.map (fun MBB => MBB.length + matchCount sampleOpcodes MBB) :=
  ⟨by unfold WellShaped; decide, by decide,
    runOnMachineFunction_lengths sampleOpcodes 4 sampleFunction
      (by unfold WellShaped; decide) (by decide)⟩

end UStore

namespace RISCV

/-! ## Predefined macros -/

/-- The definitions `getTargetDefines` appends to the builder, block by
block of the source. -/
theorem getTargetDefines_eq (Legacy CapTableABI : Nat) (T : RISCVTargetInfo)
    (Builder : MacroBuilder) :
    getTargetDefines Legacy CapTableABI T Builder
      = Builder
        ++ ([("__ELF__", .dflt), ("__riscv", .dflt),
            ("__riscv_xlen", .text (if T.Arch = .riscv64 then "64" else "32")),
            ("__riscv_cmodel_medlow", .dflt), ("__riscv_float_abi_soft", .dflt)]
        ++ (if T.HasM = true then
              [("__riscv_mul", .dflt), ("__riscv_div", .dflt), ("__riscv_muldiv", .dflt)]
            else [])
        ++ (if T.HasA = true then [("__riscv_atomic", .dflt)] else [])
        ++ (if T.HasF = true ∨ T.HasD = true then
              [("__riscv_flen", .text (if T.HasD = true then "64" else "32")),
               ("__riscv_fdiv", .dflt), ("__riscv_fsqrt", .dflt)]
            else [])
        ++ (if T.HasC = true then [("__riscv_compressed", .dflt)] else [])
        ++ (if T.HasCheri = true then
              (if T.CapabilityABI = true ∧ CapTableABI ≠ Legacy then
                [("__CHERI_CAPABILITY_TABLE__", .number ((CapTableABI : Int) + 1))]
               else [])
              ++ [("__CHERI_CAP_PERMISSION_GLOBAL__", .number 1),
                  ("__CHERI_CAP_PERMISSION_PERMIT_EXECUTE__", .number 2),
                  ("__CHERI_CAP_PERMISSION_PERMIT_LOAD__", .number 4),
                  ("__CHERI_CAP_PERMISSION_PERMIT_STORE__", .number 8),
                  ("__CHERI_CAP_PERMISSION_PERMIT_LOAD_CAPABILITY__", .number 16),
                  ("__CHERI_CAP_PERMISSION_PERMIT_STORE_CAPABILITY__", .number 32),
                  ("__CHERI_CAP_PERMISSION_PERMIT_STORE_LOCAL__", .number 64),
                  ("__CHERI_CAP_PERMISSION_PERMIT_SEAL__", .number 128),
                  ("__CHERI_CAP_PERMISSION_PERMIT_CCALL__", .number 256),
                  ("__CHERI_CAP_PERMISSION_PERMIT_UNSEAL__", .number 512),
                  ("__CHERI_CAP_PERMISSION_ACCESS_SYSTEM_REGISTERS__", .number 1024),
                  ("__riscv_clen", .number (T.CapSize : Int))]
            else [])) := by
  unfold getTargetDefines
  lift_lets
  intro B1 B2 Is64 B3 B4 B5 M1 M2 BM BA F1 F2 BF BC BT P0 P1 P2 P3 P4 P5 P6 P7 P8 P9 P10
  have e5 : B5 = Builder ++ [("__ELF__", .dflt), ("__riscv", .dflt),
      ("__riscv_xlen", .text (if T.Arch = .riscv64 then "64" else "32")),
      ("__riscv_cmodel_medlow", .dflt), ("__riscv_float_abi_soft", .dflt)] := by
    simp [B5, B4, B3, B2, B1, Is64, defineMacro]
  have eM : BM = B5 ++ (if T.HasM = true then
      [("__riscv_mul", .dflt), ("__riscv_div", .dflt), ("__riscv_muldiv", .dflt)]
      else []) := by
    simp only [BM, M2, M1, defineMacro]
    split_ifs <;> simp
  have eA : BA = BM ++ (if T.HasA = true then [("__riscv_atomic", .dflt)] else []) := by
    simp only [BA, defineMacro]
    split_ifs <;> simp
  have eF : BF = BA ++ (if T.HasF = true ∨ T.HasD = true then
      [("__riscv_flen", .text (if T.HasD = true then "64" else "32")),
       ("__riscv_fdiv", .dflt), ("__riscv_fsqrt", .dflt)]
      else []) := by
    simp only [BF, F2, F1, defineMacro, Bool.or_eq_true]
    split_ifs <;> simp
  have eC : BC = BF ++ (if T.HasC = true then [("__riscv_compressed", .dflt)] else []) := by
    simp only [BC, defineMacro]
    split_ifs <;> simp
  have eT : BT = BC ++ (if T.CapabilityABI = true ∧ CapTableABI ≠ Legacy then
      [("__CHERI_CAPABILITY_TABLE__", .number ((CapTableABI : Int) + 1))] else []) := by
    simp only [BT, defineMacro]
    split_ifs <;> simp_all
  have eP : P10 = BT ++ [("__CHERI_CAP_PERMISSION_GLOBAL__", .number 1),
      ("__CHERI_CAP_PERMISSION_PERMIT_EXECUTE__", .number 2),
      ("__CHERI_CAP_PERMISSION_PERMIT_LOAD__", .number 4),
      ("__CHERI_CAP_PERMISSION_PERMIT_STORE__", .number 8),
      ("__CHERI_CAP_PERMISSION_PERMIT_LOAD_CAPABILITY__", .number 16),
      ("__CHERI_CAP_PERMISSION_PERMIT_STORE_CAPABILITY__", .number 32),
      ("__CHERI_CAP_PERMISSION_PERMIT_STORE_LOCAL__", .number 64),
      ("__CHERI_CAP_PERMISSION_PERMIT_SEAL__", .number 128),
      ("__CHERI_CAP_PERMISSION_PERMIT_CCALL__", .number 256),
      ("__CHERI_CAP_PERMISSION_PERMIT_UNSEAL__", .number 512),
      ("__CHERI_CAP_PERMISSION_ACCESS_SYSTEM_REGISTERS__", .number 1024)] := by
    simp [P10, P9, P8, P7, P6, P5, P4, P3, P2, P1, P0, defineMacro]
  rw [eP, eT, eC, eF, eA, eM, e5]
  by_cases hC : T.HasCheri = true <;> simp [hC, defineMacro, getCHERICapabilityWidth]
/-- C6: with the capability flag off, `getTargetDefines` emits exactly the
five unconditional macros, the three multiply/divide macros when M is set, the
atomic macro when A is set, the float-length macro ("64" with D, "32"
otherwise) and the two float macros when F or D is set, and the compressed
macro when C is set; no name is defined twice. -/
theorem getTargetDefines_base (Legacy CapTableABI : Nat) (T : RISCVTargetInfo)
    (h : T.HasCheri = false) :
    (∀ (n : String) (v : MacroValue),
      (n, v) ∈ getTargetDefines Legacy CapTableABI T [] ↔
        (n = "__ELF__" ∧ v = .dflt) ∨
        (n = "__riscv" ∧ v = .dflt) ∨
        (n = "__riscv_xlen" ∧ v = .text (if T.Arch = .riscv64 then "64" else "32")) ∨
        (n = "__riscv_cmodel_medlow" ∧ v = .dflt) ∨
        (n = "__riscv_float_abi_soft" ∧ v = .dflt) ∨
        (T.HasM = true ∧
          ((n = "__riscv_mul" ∧ v = .dflt) ∨ (n = "__riscv_div" ∧ v = .dflt) ∨
           (n = "__riscv_muldiv" ∧ v = .dflt))) ∨
        (T.HasA = true ∧ n = "__riscv_atomic" ∧ v = .dflt) ∨
        ((T.HasF = true ∨ T.HasD = true) ∧
          ((n = "__riscv_flen" ∧ v = .text (if T.HasD = true then "64" else "32")) ∨
           (n = "__riscv_fdiv" ∧ v = .dflt) ∨ (n = "__riscv_fsqrt" ∧ v = .dflt))) ∨
        (T.HasC = true ∧ n = "__riscv_compressed" ∧ v = .dflt)) ∧
    ((getTargetDefines Legacy CapTableABI T []).map Prod.fst).Nodup := by
  constructor
  · intro n v
    rw [getTargetDefines_eq]
    simp [h]
  · rw [getTargetDefines_eq]
    simp only [h, Bool.false_eq_true, if_false, List.append_nil, List.nil_append]
    by_cases hM : T.HasM = true <;> by_cases hA : T.HasA = true <;>
      by_cases hF : T.HasF = true ∨ T.HasD = true <;> by_cases hC : T.HasC = true <;>
      simp [hM, hA, hF, hC]

theorem getTargetDefines_base_witness :
    ({ sampleTarget with Arch := .riscv64, HasM := true, HasD := true } :
      RISCVTargetInfo).HasCheri = false ∧
    ((∀ (n : String) (v : MacroValue),
      (n, v) ∈ getTargetDefines 0 1
          { sampleTarget with Arch := .riscv64, HasM := true, HasD := true } [] ↔
        (n = "__ELF__" ∧ v = .dflt) ∨
        (n = "__riscv" ∧ v = .dflt) ∨
        (n = "__riscv_xlen" ∧ v = .text (if
          ({ sampleTarget with Arch := .riscv64, HasM := true, HasD := true } :
            RISCVTargetInfo).Arch = .riscv64 then "64" else "32")) ∨
        (n = "__riscv_cmodel_medlow" ∧ v = .dflt) ∨
        (n = "__riscv_float_abi_soft" ∧ v = .dflt) ∨
        (({ sampleTarget with Arch := .riscv64, HasM := true, HasD := true } :
            RISCVTargetInfo).HasM = true ∧
          ((n = "__riscv_mul" ∧ v = .dflt) ∨ (n = "__riscv_div" ∧ v = .dflt) ∨
           (n = "__riscv_muldiv" ∧ v = .dflt))) ∨
        (({ sampleTarget with Arch := .riscv64, HasM := true, HasD := true } :
            RISCVTargetInfo).HasA = true ∧ n = "__riscv_atomic" ∧ v = .dflt) ∨
        ((({ sampleTarget with Arch := .riscv64, HasM := true, HasD := true } :
            RISCVTargetInfo).HasF = true ∨
          ({ sampleTarget with Arch := .riscv64, HasM := true, HasD := true } :
            RISCVTargetInfo).HasD = true) ∧
          ((n = "__riscv_flen" ∧ v = .text (if
            ({ sampleTarget with Arch := .riscv64, HasM := true, HasD := true } :
              RISCVTargetInfo).HasD = true then "64" else "32")) ∨
           (n = "__riscv_fdiv" ∧ v = .dflt) ∨ (n = "__riscv_fsqrt" ∧ v = .dflt))) ∨
        (({ sampleTarget with Arch := .riscv64, HasM := true, HasD := true } :
            RISCVTargetInfo).HasC = true ∧ n = "__riscv_compressed" ∧ v = .dflt)) ∧
    ((getTargetDefines 0 1
        { sampleTarget with Arch := .riscv64, HasM := true, HasD := true } []).map
      Prod.fst).Nodup) :=
  ⟨rfl, getTargetDefines_base 0 1
    { sampleTarget with Arch := .riscv64, HasM := true, HasD := true } rfl⟩

/-- C9: with the capability flag set, `getTargetDefines` emits what it emits
with the flag off, followed by `__CHERI_CAPABILITY_TABLE__` (only with the
capability ABI and a capability-table ABI other than the legacy one, valued
ordinal + 1), the eleven permission macros valued `2^0` to `2^10` in this
order, and `__riscv_clen` valued the capability width; with the flag off it
emits none of these thirteen names. -/
theorem getTargetDefines_cheri (Legacy CapTableABI : Nat) (T : RISCVTargetInfo) :
    (T.HasCheri = true →
      getTargetDefines Legacy CapTableABI T []
        = getTargetDefines Legacy CapTableABI { T with HasCheri := false } []
          ++ (if T.CapabilityABI = true ∧ CapTableABI ≠ Legacy then
                [("__CHERI_CAPABILITY_TABLE__", .number ((CapTableABI : Int) + 1))]
              else [])
          ++ [("__CHERI_CAP_PERMISSION_GLOBAL__", .number (2 ^ 0)),
              ("__CHERI_CAP_PERMISSION_PERMIT_EXECUTE__", .number (2 ^ 1)),
              ("__CHERI_CAP_PERMISSION_PERMIT_LOAD__", .number (2 ^ 2)),
              ("__CHERI_CAP_PERMISSION_PERMIT_STORE__", .number (2 ^ 3)),
              ("__CHERI_CAP_PERMISSION_PERMIT_LOAD_CAPABILITY__", .number (2 ^ 4)),
              ("__CHERI_CAP_PERMISSION_PERMIT_STORE_CAPABILITY__", .number (2 ^ 5)),
              ("__CHERI_CAP_PERMISSION_PERMIT_STORE_LOCAL__", .number (2 ^ 6)),
              ("__CHERI_CAP_PERMISSION_PERMIT_SEAL__", .number (2 ^ 7)),
              ("__CHERI_CAP_PERMISSION_PERMIT_CCALL__", .number (2 ^ 8)),
              ("__CHERI_CAP_PERMISSION_PERMIT_UNSEAL__", .number (2 ^ 9)),
              ("__CHERI_CAP_PERMISSION_ACCESS_SYSTEM_REGISTERS__", .number (2 ^ 10))]
          ++ [("__riscv_clen", .number (getCHERICapabilityWidth T : Int))]) ∧
    (T.HasCheri = false →
      ∀ p ∈ getTargetDefines Legacy CapTableABI T [],
        p.1 ∉ ["__CHERI_CAPABILITY_TABLE__",
          "__CHERI_CAP_PERMISSION_GLOBAL__",
          "__CHERI_CAP_PERMISSION_PERMIT_EXECUTE__",
          "__CHERI_CAP_PERMISSION_PERMIT_LOAD__",
          "__CHERI_CAP_PERMISSION_PERMIT_STORE__",
          "__CHERI_CAP_PERMISSION_PERMIT_LOAD_CAPABILITY__",
          "__CHERI_CAP_PERMISSION_PERMIT_STORE_CAPABILITY__",
          "__CHERI_CAP_PERMISSION_PERMIT_STORE_LOCAL__",
          "__CHERI_CAP_PERMISSION_PERMIT_SEAL__",
          "__CHERI_CAP_PERMISSION_PERMIT_CCALL__",
          "__CHERI_CAP_PERMISSION_PERMIT_UNSEAL__",
          "__CHERI_CAP_PERMISSION_ACCESS_SYSTEM_REGISTERS__",
          "__riscv_clen"]) := by
  constructor
  · intro h
    rw [getTargetDefines_eq, getTargetDefines_eq]
    simp [h, getCHERICapabilityWidth]
  · intro h p hp
    rw [getTargetDefines_eq] at hp
    obtain ⟨n, v⟩ := p
    simp only [h, Bool.false_eq_true, if_false, List.append_nil, List.nil_append,
      List.mem_append, List.mem_ite_nil_right, List.mem_cons, List.not_mem_nil, or_false,
      Prod.mk.injEq] at hp
    have hn : n ∈ ["__ELF__", "__riscv", "__riscv_xlen", "__riscv_cmodel_medlow",
        "__riscv_float_abi_soft", "__riscv_mul", "__riscv_div", "__riscv_muldiv",
        "__riscv_atomic", "__riscv_flen", "__riscv_fdiv", "__riscv_fsqrt",
        "__riscv_compressed"] := by
      simp only [List.mem_cons, List.not_mem_nil, or_false]
      tauto
    have hdisj : ∀ m ∈ ["__ELF__", "__riscv", "__riscv_xlen", "__riscv_cmodel_medlow",
        "__riscv_float_abi_soft", "__riscv_mul", "__riscv_div", "__riscv_muldiv",
        "__riscv_atomic", "__riscv_flen", "__riscv_fdiv", "__riscv_fsqrt",
        "__riscv_compressed"],
        m ∉ ["__CHERI_CAPABILITY_TABLE__",
          "__CHERI_CAP_PERMISSION_GLOBAL__",
          "__CHERI_CAP_PERMISSION_PERMIT_EXECUTE__",
          "__CHERI_CAP_PERMISSION_PERMIT_LOAD__",
          "__CHERI_CAP_PERMISSION_PERMIT_STORE__",
          "__CHERI_CAP_PERMISSION_PERMIT_LOAD_CAPABILITY__",
          "__CHERI_CAP_PERMISSION_PERMIT_STORE_CAPABILITY__",
          "__CHERI_CAP_PERMISSION_PERMIT_STORE_LOCAL__",
          "__CHERI_CAP_PERMISSION_PERMIT_SEAL__",
          "__CHERI_CAP_PERMISSION_PERMIT_CCALL__",
          "__CHERI_CAP_PERMISSION_PERMIT_UNSEAL__",
          "__CHERI_CAP_PERMISSION_ACCESS_SYSTEM_REGISTERS__",
          "__riscv_clen"] := by
      decide
    exact hdisj n hn

theorem getTargetDefines_cheri_witness :
    sampleCheriTarget.HasCheri = true ∧ sampleTarget.HasCheri = false ∧
    (getTargetDefines 0 1 sampleCheriTarget []
        = getTargetDefines 0 1 { sampleCheriTarget with HasCheri := false } []
          ++ (if sampleCheriTarget.CapabilityABI = true ∧ (1 : Nat) ≠ 0 then
                [("__CHERI_CAPABILITY_TABLE__", .number (((1 : Nat) : Int) + 1))]
              else [])
          ++ [("__CHERI_CAP_PERMISSION_GLOBAL__", .number (2 ^ 0)),
              ("__CHERI_CAP_PERMISSION_PERMIT_EXECUTE__", .number (2 ^ 1)),
              ("__CHERI_CAP_PERMISSION_PERMIT_LOAD__", .number (2 ^ 2)),
              ("__CHERI_CAP_PERMISSION_PERMIT_STORE__", .number (2 ^ 3)),
              ("__CHERI_CAP_PERMISSION_PERMIT_LOAD_CAPABILITY__", .number (2 ^ 4)),
              ("__CHERI_CAP_PERMISSION_PERMIT_STORE_CAPABILITY__", .number (2 ^ 5)),
              ("__CHERI_CAP_PERMISSION_PERMIT_STORE_LOCAL__", .number (2 ^ 6)),
              ("__CHERI_CAP_PERMISSION_PERMIT_SEAL__", .number (2 ^ 7)),
              ("__CHERI_CAP_PERMISSION_PERMIT_CCALL__", .number (2 ^ 8)),
              ("__CHERI_CAP_PERMISSION_PERMIT_UNSEAL__", .number (2 ^ 9)),
              ("__CHERI_CAP_PERMISSION_ACCESS_SYSTEM_REGISTERS__", .number (2 ^ 10))]
          ++ [("__riscv_clen", .number (getCHERICapabilityWidth sampleCheriTarget : Int))]) ∧
    (∀ p ∈ getTargetDefines 0 1 sampleTarget [],
        p.1 ∉ ["__CHERI_CAPABILITY_TABLE__",
          "__CHERI_CAP_PERMISSION_GLOBAL__",
          "__CHERI_CAP_PERMISSION_PERMIT_EXECUTE__",
          "__CHERI_CAP_PERMISSION_PERMIT_LOAD__",
          "__CHERI_CAP_PERMISSION_PERMIT_STORE__",
          "__CHERI_CAP_PERMISSION_PERMIT_LOAD_CAPABILITY__",
          "__CHERI_CAP_PERMISSION_PERMIT_STORE_CAPABILITY__",
          "__CHERI_CAP_PERMISSION_PERMIT_STORE_LOCAL__",
          "__CHERI_CAP_PERMISSION_PERMIT_SEAL__",
          "__CHERI_CAP_PERMISSION_PERMIT_CCALL__",
          "__CHERI_CAP_PERMISSION_PERMIT_UNSEAL__",
          "__CHERI_CAP_PERMISSION_ACCESS_SYSTEM_REGISTERS__",
          "__riscv_clen"]) :=
  ⟨rfl, rfl, (getTargetDefines_cheri 0 1 sampleCheriTarget).1 rfl,
    (getTargetDefines_cheri 0 1 sampleTarget).2 rfl⟩

/-! ## Feature tokens -/

theorem foldl_handleFeature :
    ∀ (Features : List String) (T : RISCVTargetInfo),
      Features.foldl handleFeature T = featuresApplied T Features := by
  intro Features
  induction Features with
  | nil => intro T; cases T; simp [featuresApplied]
  | cons a l ih =>
    intro T
    rw [List.foldl_cons, ih]
    cases T
    simp only [handleFeature, featuresApplied]
    split_ifs <;> simp_all [eq_comm]

/-- C7: the tokens of a list applied in any order leave the same state (the
flags and the capability width among it), and `getTargetDefines` then gives
the same definitions. -/
theorem handleTargetFeatures_perm (layoutOf : RISCVTargetInfo → String)
    (T : RISCVTargetInfo) (Features Permuted : List String)
    (Legacy CapTableABI : Nat) (Builder : MacroBuilder)
    (h : Features.Perm Permuted) :
    handleTargetFeatures layoutOf Features T = handleTargetFeatures layoutOf Permuted T ∧
    getTargetDefines Legacy CapTableABI (handleTargetFeatures layoutOf Features T).2 Builder
      = getTargetDefines Legacy CapTableABI
          (handleTargetFeatures layoutOf Permuted T).2 Builder := by
  have hfold : Features.foldl handleFeature T = Permuted.foldl handleFeature T := by
    rw [foldl_handleFeature, foldl_handleFeature]
    simp only [featuresApplied, h.mem_iff]
  have hrun : handleTargetFeatures layoutOf Features T
      = handleTargetFeatures layoutOf Permuted T := by
    simp only [handleTargetFeatures, hfold]
  exact ⟨hrun, by rw [hrun]⟩

theorem handleTargetFeatures_perm_witness :
    ["+xcheri", "+m", "+zzz", "+d"].Perm ["+d", "+zzz", "+xcheri", "+m"] ∧
    (handleTargetFeatures (fun _ => "e") ["+xcheri", "+m", "+zzz", "+d"] sampleTarget
      = handleTargetFeatures (fun _ => "e") ["+d", "+zzz", "+xcheri", "+m"] sampleTarget ∧
    getTargetDefines 0 1
        (handleTargetFeatures (fun _ => "e") ["+xcheri", "+m", "+zzz", "+d"] sampleTarget).2 []
      = getTargetDefines 0 1
        (handleTargetFeatures (fun _ => "e") ["+d", "+zzz", "+xcheri", "+m"] sampleTarget).2
          []) :=
  ⟨by decide,
    handleTargetFeatures_perm (fun _ => "e") sampleTarget
      ["+xcheri", "+m", "+zzz", "+d"] ["+d", "+zzz", "+xcheri", "+m"] 0 1 [] (by decide)⟩

/-- C8: with pointer width `w`, a token list that holds `+xcheri` leaves the
capability flag set and the capability width equal to `2 * w`. -/
theorem handleTargetFeatures_xcheri (layoutOf : RISCVTargetInfo → String)
    (T : RISCVTargetInfo) (w : Nat) (Features : List String)
    (h : "+xcheri" ∈ Features) :
    (handleTargetFeatures layoutOf Features { T with PointerWidth := w }).1 = true ∧
    (handleTargetFeatures layoutOf Features { T with PointerWidth := w }).2.HasCheri = true ∧
    (handleTargetFeatures layoutOf Features { T with PointerWidth := w }).2.CapSize = 2 * w ∧
    getCHERICapabilityWidth
      (handleTargetFeatures layoutOf Features { T with PointerWidth := w }).2 = 2 * w := by
  simp [handleTargetFeatures, foldl_handleFeature, featuresApplied, setDataLayout,
    getCHERICapabilityWidth, h, Nat.mul_comm]

theorem handleTargetFeatures_xcheri_witness :
    "+xcheri" ∈ ["+m", "+xcheri"] ∧
    (handleTargetFeatures (fun _ => "e") ["+m", "+xcheri"]
        { sampleTarget with PointerWidth := 32 }).1 = true ∧
    (handleTargetFeatures (fun _ => "e") ["+m", "+xcheri"]
        { sampleTarget with PointerWidth := 32 }).2.HasCheri = true ∧
    (handleTargetFeatures (fun _ => "e") ["+m", "+xcheri"]
        { sampleTarget with PointerWidth := 32 }).2.CapSize = 2 * 32 ∧
    getCHERICapabilityWidth
      (handleTargetFeatures (fun _ => "e") ["+m", "+xcheri"]
        { sampleTarget with PointerWidth := 32 }).2 = 2 * 32 :=
  ⟨by decide,
    handleTargetFeatures_xcheri (fun _ => "e") sampleTarget 32 ["+m", "+xcheri"] (by decide)⟩

/-! ## Inline-assembly constraints -/

/-- C10: for the letter `I`, `validateAsmConstraint` accepts and records the
range from -2048 to 2047: an integer satisfies the recorded range exactly
when it lies in it, so 2047 and -2048 pass, 2048 and -2049 do not. -/
theorem validateAsmConstraint_I (Info : ConstraintInfo) :
    (validateAsmConstraint 'I' Info).1 = true ∧
    (validateAsmConstraint 'I' Info).2.RequiresImmediate = true ∧
    (validateAsmConstraint 'I' Info).2.ImmMin = -2048 ∧
    (validateAsmConstraint 'I' Info).2.ImmMax = 2047 ∧
    (∀ v : Int, isValidAsmImmediate (validateAsmConstraint 'I' Info).2 v = true
      ↔ -2048 ≤ v ∧ v ≤ 2047) ∧
    isValidAsmImmediate (validateAsmConstraint 'I' Info).2 2047 = true ∧
    isValidAsmImmediate (validateAsmConstraint 'I' Info).2 (-2048) = true ∧
    isValidAsmImmediate (validateAsmConstraint 'I' Info).2 2048 = false ∧
    isValidAsmImmediate (validateAsmConstraint 'I' Info).2 (-2049) = false := by
  simp [validateAsmConstraint, setRequiresImmediate, isValidAsmImmediate]

/-- C11: for the letter `K`, `validateAsmConstraint` accepts and records the
range from 0 to 31: an integer satisfies the recorded range exactly when it
lies in it, so 0 and 31 pass, -1 and 32 do not. -/
theorem validateAsmConstraint_K (Info : ConstraintInfo) :
    (validateAsmConstraint 'K' Info).1 = true ∧
    (validateAsmConstraint 'K' Info).2.RequiresImmediate = true ∧
    (validateAsmConstraint 'K' Info).2.ImmMin = 0 ∧
    (validateAsmConstraint 'K' Info).2.ImmMax = 31 ∧
    (∀ v : Int, isValidAsmImmediate (validateAsmConstraint 'K' Info).2 v = true
      ↔ 0 ≤ v ∧ v ≤ 31) ∧
    isValidAsmImmediate (validateAsmConstraint 'K' Info).2 0 = true ∧
    isValidAsmImmediate (validateAsmConstraint 'K' Info).2 31 = true ∧
    isValidAsmImmediate (validateAsmConstraint 'K' Info).2 (-1) = false ∧
    isValidAsmImmediate (validateAsmConstraint 'K' Info).2 32 = false := by
  simp [validateAsmConstraint, setRequiresImmediate, isValidAsmImmediate]

/-- C12: `validateAsmConstraint` accepts exactly the letters `I`, `J` and
`K`; for `J` the recorded range is zero alone; any other character is rejected
and the constraint info is left as it was. -/
theorem validateAsmConstraint_letters (c : Char) (Info : ConstraintInfo) :
    ((validateAsmConstraint c Info).1 = true ↔ c = 'I' ∨ c = 'J' ∨ c = 'K') ∧
    (validateAsmConstraint 'J' Info).1 = true ∧
    (validateAsmConstraint 'J' Info).2.ImmMin = 0 ∧
    (validateAsmConstraint 'J' Info).2.ImmMax = 0 ∧
    (∀ v : Int, isValidAsmImmediate (validateAsmConstraint 'J' Info).2 v = true ↔ v = 0) ∧
    ((c = 'I' ∨ c = 'J' ∨ c = 'K') ∨ validateAsmConstraint c Info = (false, Info)) := by
  refine ⟨?_, ?_, ?_, ?_, ?_, ?_⟩
  · unfold validateAsmConstraint
    split_ifs <;> simp_all
  · simp [validateAsmConstraint]
  · simp [validateAsmConstraint, setRequiresImmediateExact, setRequiresImmediate]
  · simp [validateAsmConstraint, setRequiresImmediateExact, setRequiresImmediate]
  · intro v
    simp only [validateAsmConstraint, setRequiresImmediateExact, setRequiresImmediate,
      isValidAsmImmediate]
    simp
    omega
  · unfold validateAsmConstraint
    split_ifs <;> simp_all

/-! ## Feature tokens, continued -/

theorem featuresApplied_of_none (T : RISCVTargetInfo) (Features : List String)
    (h : ∀ t ∈ recognisedTokens, t ∉ Features) : featuresApplied T Features = T := by
  have hm := h "+m" (by simp [recognisedTokens])
  have ha := h "+a" (by simp [recognisedTokens])
  have hf := h "+f" (by simp [recognisedTokens])
  have hd := h "+d" (by simp [recognisedTokens])
  have hc := h "+c" (by simp [recognisedTokens])
  have hx := h "+xcheri" (by simp [recognisedTokens])
  cases T
  simp [featuresApplied, hm, ha, hf, hd, hc, hx]

/-- C13: `handleTargetFeatures` returns true for every token list; the state
it leaves is the one it leaves for the list with every token other than `+m`,
`+a`, `+f`, `+d`, `+c`, `+xcheri` removed; the tokens outside these six leave
the flags and the capability width as they were. -/
theorem handleTargetFeatures_ignores_unknown (layoutOf : RISCVTargetInfo → String)
    (Features : List String) (T : RISCVTargetInfo) :
    (handleTargetFeatures layoutOf Features T).1 = true ∧
    handleTargetFeatures layoutOf Features T
      = handleTargetFeatures layoutOf
          (Features.filter (fun t => decide (t ∈ recognisedTokens))) T ∧
    handleTargetFeatures layoutOf
        (Features.filter (fun t => decide (t ∉ recognisedTokens))) T
      = (true, setDataLayout layoutOf T) := by
  refine ⟨rfl, ?_, ?_⟩
  · simp only [handleTargetFeatures, foldl_handleFeature]
    have e : featuresApplied T Features
        = featuresApplied T (Features.filter (fun t => decide (t ∈ recognisedTokens))) := by
      simp [featuresApplied, List.mem_filter, recognisedTokens]
    rw [e]
  · simp only [handleTargetFeatures, foldl_handleFeature]
    rw [featuresApplied_of_none]
    intro t ht hmem
    simp only [List.mem_filter, decide_eq_true_eq] at hmem
    exact hmem.2 ht

/-- C14: from a state with all six extension flags false, `hasFeature` after
`handleTargetFeatures` answers true for `m`, `a`, `f`, `d`, `c`, `xcheri`
exactly when the token `+m`, `+a`, `+f`, `+d`, `+c`, `+xcheri` occurs in the
list. -/
theorem hasFeature_sync (layoutOf : RISCVTargetInfo → String)
    (Features : List String) (T : RISCVTargetInfo)
    (hM : T.HasM = false) (hA : T.HasA = false) (hF : T.HasF = false)
    (hD : T.HasD = false) (hC : T.HasC = false) (hX : T.HasCheri = false) :
    (hasFeature (handleTargetFeatures layoutOf Features T).2 "m" = true
      ↔ "+m" ∈ Features) ∧
    (hasFeature (handleTargetFeatures layoutOf Features T).2 "a" = true
      ↔ "+a" ∈ Features) ∧
    (hasFeature (handleTargetFeatures layoutOf Features T).2 "f" = true
      ↔ "+f" ∈ Features) ∧
    (hasFeature (handleTargetFeatures layoutOf Features T).2 "d" = true
      ↔ "+d" ∈ Features) ∧
    (hasFeature (handleTargetFeatures layoutOf Features T).2 "c" = true
      ↔ "+c" ∈ Features) ∧
    (hasFeature (handleTargetFeatures layoutOf Features T).2 "xcheri" = true
      ↔ "+xcheri" ∈ Features) := by
  simp [handleTargetFeatures, foldl_handleFeature, featuresApplied, setDataLayout,
    hasFeature, hM, hA, hF, hD, hC, hX]

theorem hasFeature_sync_witness :
    sampleTarget.HasM = false ∧ sampleTarget.HasA = false ∧ sampleTarget.HasF = false ∧
    sampleTarget.HasD = false ∧ sampleTarget.HasC = false ∧
    sampleTarget.HasCheri = false ∧
    ((hasFeature (handleTargetFeatures (fun _ => "e") ["+d", "+zzz", "+xcheri"]
        sampleTarget).2 "m" = true ↔ "+m" ∈ ["+d", "+zzz", "+xcheri"]) ∧
    (hasFeature (handleTargetFeatures (fun _ => "e") ["+d", "+zzz", "+xcheri"]
        sampleTarget).2 "a" = true ↔ "+a" ∈ ["+d", "+zzz", "+xcheri"]) ∧
    (hasFeature (handleTargetFeatures (fun _ => "e") ["+d", "+zzz", "+xcheri"]
        sampleTarget).2 "f" = true ↔ "+f" ∈ ["+d", "+zzz", "+xcheri"]) ∧
    (hasFeature (handleTargetFeatures (fun _ => "e") ["+d", "+zzz", "+xcheri"]
        sampleTarget).2 "d" = true ↔ "+d" ∈ ["+d", "+zzz", "+xcheri"]) ∧
    (hasFeature (handleTargetFeatures (fun _ => "e") ["+d", "+zzz", "+xcheri"]
        sampleTarget).2 "c" = true ↔ "+c" ∈ ["+d", "+zzz", "+xcheri"]) ∧
    (hasFeature (handleTargetFeatures (fun _ => "e") ["+d", "+zzz", "+xcheri"]
        sampleTarget).2 "xcheri" = true ↔ "+xcheri" ∈ ["+d", "+zzz", "+xcheri"])) :=
  ⟨rfl, rfl, rfl, rfl, rfl, rfl,
    hasFeature_sync (fun _ => "e") ["+d", "+zzz", "+xcheri"] sampleTarget
      rfl rfl rfl rfl rfl rfl⟩

/-! ## Macro names and flags -/

theorem mem_emittedNames (Legacy CapTableABI : Nat) (T : RISCVTargetInfo) (n : String) :
    n ∈ emittedNames Legacy CapTableABI T ↔
      n ∈ ["__ELF__", "__riscv", "__riscv_xlen", "__riscv_cmodel_medlow",
        "__riscv_float_abi_soft"] ∨
      (T.HasM = true ∧ n ∈ ["__riscv_mul", "__riscv_div", "__riscv_muldiv"]) ∨
      (T.HasA = true ∧ n = "__riscv_atomic") ∨
      ((T.HasF = true ∨ T.HasD = true) ∧
        n ∈ ["__riscv_flen", "__riscv_fdiv", "__riscv_fsqrt"]) ∨
      (T.HasC = true ∧ n = "__riscv_compressed") ∨
      (T.HasCheri = true ∧
        ((T.CapabilityABI = true ∧ CapTableABI ≠ Legacy ∧
            n = "__CHERI_CAPABILITY_TABLE__") ∨
          n ∈ ["__CHERI_CAP_PERMISSION_GLOBAL__",
            "__CHERI_CAP_PERMISSION_PERMIT_EXECUTE__",
            "__CHERI_CAP_PERMISSION_PERMIT_LOAD__",
            "__CHERI_CAP_PERMISSION_PERMIT_STORE__",
            "__CHERI_CAP_PERMISSION_PERMIT_LOAD_CAPABILITY__",
            "__CHERI_CAP_PERMISSION_PERMIT_STORE_CAPABILITY__",
            "__CHERI_CAP_PERMISSION_PERMIT_STORE_LOCAL__",
            "__CHERI_CAP_PERMISSION_PERMIT_SEAL__",
            "__CHERI_CAP_PERMISSION_PERMIT_CCALL__",
            "__CHERI_CAP_PERMISSION_PERMIT_UNSEAL__",
            "__CHERI_CAP_PERMISSION_ACCESS_SYSTEM_REGISTERS__",
            "__riscv_clen"])) := by
  unfold emittedNames
  rw [getTargetDefines_eq]
  simp only [List.nil_append, List.map_append, List.mem_append, apply_ite (List.map Prod.fst),
    List.map_cons, List.map_nil, List.mem_ite_nil_right, List.mem_cons, List.not_mem_nil,
    or_false, or_assoc, and_assoc]

/-- C15, as stated, fails: two states with the same flags (capability flag
set) that differ in the capability-ABI setting do not emit the same names,
`__CHERI_CAPABILITY_TABLE__` is emitted for one and not for the other. -/
theorem emittedNames_not_flags_only :
    SameFlags sampleCheriTarget { sampleCheriTarget with CapabilityABI := false } ∧
    "__CHERI_CAPABILITY_TABLE__" ∈ emittedNames 0 1 sampleCheriTarget ∧
    "__CHERI_CAPABILITY_TABLE__" ∉
      emittedNames 0 1 { sampleCheriTarget with CapabilityABI := false } ∧
    ¬ (∀ (Legacy CapTableABI Legacy2 CapTableABI2 : Nat) (T1 T2 : RISCVTargetInfo),
        SameFlags T1 T2 →
        ∀ n, n ∈ emittedNames Legacy CapTableABI T1
          ↔ n ∈ emittedNames Legacy2 CapTableABI2 T2) := by
  have hs : SameFlags sampleCheriTarget { sampleCheriTarget with CapabilityABI := false } :=
    ⟨rfl, rfl, rfl, rfl, rfl, rfl⟩
  have h1 : "__CHERI_CAPABILITY_TABLE__" ∈ emittedNames 0 1 sampleCheriTarget := by
    rw [mem_emittedNames]
    simp [sampleCheriTarget]
  have h2 : "__CHERI_CAPABILITY_TABLE__" ∉
      emittedNames 0 1 { sampleCheriTarget with CapabilityABI := false } := by
    rw [mem_emittedNames]
    simp [sampleCheriTarget]
  exact ⟨hs, h1, h2, fun h => h2 ((h 0 1 0 1 _ _ hs _).1 h1)⟩

/-- C15, amended: two states with the same flags emit the same macro names
apart from `__CHERI_CAPABILITY_TABLE__`, whatever the word size, the
capability-ABI setting, the capability-table ABI variant and the capability
width are; `__CHERI_CAPABILITY_TABLE__` is emitted exactly when the
capability flag is set, the capability ABI is in use and the table ABI variant
is not the legacy one. -/
theorem emittedNames_of_flags (Legacy CapTableABI Legacy2 CapTableABI2 : Nat)
    (T1 T2 : RISCVTargetInfo) (h : SameFlags T1 T2) :
    (∀ n, n ≠ "__CHERI_CAPABILITY_TABLE__" →
      (n ∈ emittedNames Legacy CapTableABI T1
        ↔ n ∈ emittedNames Legacy2 CapTableABI2 T2)) ∧
    ("__CHERI_CAPABILITY_TABLE__" ∈ emittedNames Legacy CapTableABI T1
      ↔ T1.HasCheri = true ∧ T1.CapabilityABI = true ∧ CapTableABI ≠ Legacy) := by
  obtain ⟨hM, hA, hF, hD, hC, hX⟩ := h
  constructor
  · intro n hn
    rw [mem_emittedNames, mem_emittedNames]
    simp only [hM, hA, hF, hD, hC, hX, hn, and_false, false_or]
  · rw [mem_emittedNames]
    simp

theorem emittedNames_of_flags_witness :
    SameFlags sampleCheriTarget
      { sampleCheriTarget with Arch := .riscv64, CapSize := 128, CapabilityABI := false } ∧
    ((∀ n, n ≠ "__CHERI_CAPABILITY_TABLE__" →
      (n ∈ emittedNames 0 1 sampleCheriTarget
        ↔ n ∈ emittedNames 0 2
          { sampleCheriTarget with
            Arch := .riscv64, CapSize := 128, CapabilityABI := false })) ∧
    ("__CHERI_CAPABILITY_TABLE__" ∈ emittedNames 0 1 sampleCheriTarget
      ↔ sampleCheriTarget.HasCheri = true ∧ sampleCheriTarget.CapabilityABI = true ∧
        (1 : Nat) ≠ 0)) :=
  ⟨⟨rfl, rfl, rfl, rfl, rfl, rfl⟩,
    emittedNames_of_flags 0 1 0 2 sampleCheriTarget
      { sampleCheriTarget with Arch := .riscv64, CapSize := 128, CapabilityABI := false }
      ⟨rfl, rfl, rfl, rfl, rfl, rfl⟩⟩

/-! ## Register names -/

/-- C16 on the tables of the source: the register name `c14` is the target of
no alias entry and `c15` is the target of two (`ca4` and `ca5`), while every
other register name is the target of exactly one entry, as is `x14` (from
`a4`) in the integer half of the table. -/
theorem getGCCRegAliases_targets :
    getGCCRegNames.length = 64 ∧ getGCCRegAliases.length = 64 ∧
    "c14" ∈ getGCCRegNames ∧ aliasEntriesFor "c14" = 0 ∧ aliasEntriesFor "c15" = 2 ∧
    (getGCCRegAliases.filter (fun A => decide (A.Register = "c15"))).map
      (fun A => A.Aliases) = [["ca4"], ["ca5"]] ∧
    (getGCCRegAliases.filter (fun A => decide (A.Register = "x14"))).map
      (fun A => A.Aliases) = [["a4"]] ∧
    getGCCRegNames.filter (fun n => aliasEntriesFor n != 1) = ["c14", "c15"] ∧
    ¬ (getGCCRegAliases.map (fun A => A.Register)).Nodup := by
  refine ⟨by decide, by decide, by decide, by decide, by decide, by decide, by decide,
    by decide, by decide⟩

end RISCV

namespace UStore

/-! ## The rewrite table -/

theorem storeTable_nodup (E : MipsOpcodes) : (storeTable E).Nodup := by
  have h : (storeTable E ++ insertedOpcodes E).Nodup := E.distinct
  exact (List.nodup_append.1 h).1

theorem tableHasEntries_length (E : MipsOpcodes) (n : Nat) (h : TableHasEntries E n) :
    n = 7 := by
  obtain ⟨l, hnd, hlen, hl⟩ := h
  have hmem : ∀ a, a ∈ l ↔ a ∈ storeTable E := by
    intro a
    have h1 := hl ⟨a, []⟩
    have h2 := uStoreEquivalentOpcode_ne_zero_iff E ⟨a, []⟩
    exact h1.symm.trans h2
  have hperm := (List.perm_ext_iff_of_nodup hnd (storeTable_nodup E)).2 hmem
  have := hperm.length_eq
  simp only [storeTable, List.length_cons, List.length_nil] at this
  omega

/-- C17, as stated, fails: with the sample numbering there are not eight
pairwise different opcodes that `uStoreEquivalentOpcode` maps to a non-zero
opcode; the switch has seven case labels. -/
theorem tableHasEntries_eight_fails :
    ¬ TableHasEntries sampleOpcodes 8 ∧
    (List.range' 95 20).filter
      (fun op => decide (uStoreEquivalentOpcode sampleOpcodes ⟨op, []⟩ ≠ 0))
      = [101, 102, 103, 104, 105, 106, 107] := by
  refine ⟨fun h => ?_, by decide⟩
  have := tableHasEntries_length sampleOpcodes 8 h
  omega

theorem uStoreEquivalentOpcode_entries (E : MipsOpcodes) (Operands : List MachineOperand) :
    uStoreEquivalentOpcode E ⟨E.CAPSTORE8, Operands⟩ = E.UCAPSTORE8 ∧
    uStoreEquivalentOpcode E ⟨E.CAPSTORE832, Operands⟩ = E.UCAPSTORE832 ∧
    uStoreEquivalentOpcode E ⟨E.CAPSTORE16, Operands⟩ = E.UCAPSTORE16 ∧
    uStoreEquivalentOpcode E ⟨E.CAPSTORE1632, Operands⟩ = E.UCAPSTORE1632 ∧
    uStoreEquivalentOpcode E ⟨E.CAPSTORE32, Operands⟩ = E.UCAPSTORE32 ∧
    uStoreEquivalentOpcode E ⟨E.CAPSTORE3264, Operands⟩ = E.UCAPSTORE3264 ∧
    uStoreEquivalentOpcode E ⟨E.CAPSTORE64, Operands⟩ = E.UCAPSTORE64 := by
  have hnd := storeTable_nodup E
  simp only [storeTable, List.nodup_cons, List.mem_cons, List.mem_singleton,
    List.not_mem_nil, or_false, not_or, not_false_eq_true, List.nodup_nil, and_true]
    at hnd
  obtain ⟨⟨h12, h13, h14, h15, h16, h17⟩, ⟨h23, h24, h25, h26, h27⟩,
    ⟨h34, h35, h36, h37⟩, ⟨h45, h46, h47⟩, ⟨h56, h57⟩, h67⟩ := hnd
  refine ⟨?_, ?_, ?_, ?_, ?_, ?_, ?_⟩
  · simp [uStoreEquivalentOpcode]
  · simp [uStoreEquivalentOpcode, Ne.symm h12]
  · simp [uStoreEquivalentOpcode, Ne.symm h13, Ne.symm h23]
  · simp [uStoreEquivalentOpcode, Ne.symm h14, Ne.symm h24, Ne.symm h34]
  · simp [uStoreEquivalentOpcode, Ne.symm h15, Ne.symm h25, Ne.symm h35, Ne.symm h45]
  · simp [uStoreEquivalentOpcode, Ne.symm h16, Ne.symm h26, Ne.symm h36, Ne.symm h46,
      Ne.symm h56]
  · simp [uStoreEquivalentOpcode, Ne.symm h17, Ne.symm h27, Ne.symm h37, Ne.symm h47,
      Ne.symm h57, Ne.symm h67]

/-- C17, amended: the rewrite table has exactly seven entries: the seven
case labels are pairwise different, an instruction carrying one of them is
mapped to the uninitialized-store opcode of the same width variant
(`CAPSTORE8` to `UCAPSTORE8`, `CAPSTORE832` to `UCAPSTORE832`, and so on),
which is non-zero and different for different labels, and every other opcode
is mapped to 0. -/
theorem tableHasEntries_seven (E : MipsOpcodes) :
    TableHasEntries E 7 ∧ (storeTable E).Nodup ∧ (storeTable E).length = 7 ∧
    (∀ MI : MachineInstr, uStoreEquivalentOpcode E MI ≠ 0 ↔ MI.Opcode ∈ storeTable E) ∧
    (∀ MI : MachineInstr, MI.Opcode ∉ storeTable E ↔ uStoreEquivalentOpcode E MI = 0) ∧
    (∀ Operands : List MachineOperand,
      uStoreEquivalentOpcode E ⟨E.CAPSTORE8, Operands⟩ = E.UCAPSTORE8 ∧
      uStoreEquivalentOpcode E ⟨E.CAPSTORE832, Operands⟩ = E.UCAPSTORE832 ∧
      uStoreEquivalentOpcode E ⟨E.CAPSTORE16, Operands⟩ = E.UCAPSTORE16 ∧
      uStoreEquivalentOpcode E ⟨E.CAPSTORE1632, Operands⟩ = E.UCAPSTORE1632 ∧
      uStoreEquivalentOpcode E ⟨E.CAPSTORE32, Operands⟩ = E.UCAPSTORE32 ∧
      uStoreEquivalentOpcode E ⟨E.CAPSTORE3264, Operands⟩ = E.UCAPSTORE3264 ∧
      uStoreEquivalentOpcode E ⟨E.CAPSTORE64, Operands⟩ = E.UCAPSTORE64) ∧
    (storeTable E).map (fun op => uStoreEquivalentOpcode E ⟨op, []⟩)
      = [E.UCAPSTORE8, E.UCAPSTORE832, E.UCAPSTORE16, E.UCAPSTORE1632, E.UCAPSTORE32,
          E.UCAPSTORE3264, E.UCAPSTORE64] ∧
    [E.UCAPSTORE8, E.UCAPSTORE832, E.UCAPSTORE16, E.UCAPSTORE1632, E.UCAPSTORE32,
      E.UCAPSTORE3264, E.UCAPSTORE64].Nodup ∧
    0 ∉ [E.UCAPSTORE8, E.UCAPSTORE832, E.UCAPSTORE16, E.UCAPSTORE1632, E.UCAPSTORE32,
      E.UCAPSTORE3264, E.UCAPSTORE64] := by
  refine ⟨⟨storeTable E, storeTable_nodup E, rfl, uStoreEquivalentOpcode_ne_zero_iff E⟩,
    storeTable_nodup E, rfl, uStoreEquivalentOpcode_ne_zero_iff E, ?_,
    uStoreEquivalentOpcode_entries E, ?_, ?_, E.nonzero⟩
  · intro MI
    rw [← uStoreEquivalentOpcode_ne_zero_iff E MI]
    exact not_not
  · obtain ⟨h1, h2, h3, h4, h5, h6, h7⟩ := uStoreEquivalentOpcode_entries E []
    simp only [storeTable, List.map_cons, List.map_nil, h1, h2, h3, h4, h5, h6, h7]
  · have h : (storeTable E ++ ([E.UCAPSTORE8, E.UCAPSTORE832, E.UCAPSTORE16,
        E.UCAPSTORE1632, E.UCAPSTORE32, E.UCAPSTORE3264, E.UCAPSTORE64]
        ++ [E.CIncOffset])).Nodup := E.distinct
    exact (List.nodup_append.1 (List.nodup_append.1 h).2.1).1

/-- C18: the opcode `uStoreEquivalentOpcode` returns for a matched
instruction, and the opcode `CIncOffset`, are themselves mapped to 0, whatever
the operands: neither inserted instruction matches the table. -/
theorem uStoreEquivalentOpcode_of_inserted (E : MipsOpcodes) (MI : MachineInstr)
    (Operands Operands2 : List MachineOperand)
    (h : uStoreEquivalentOpcode E MI ≠ 0) :
    uStoreEquivalentOpcode E ⟨uStoreEquivalentOpcode E MI, Operands⟩ = 0 ∧
    uStoreEquivalentOpcode E ⟨E.CIncOffset, Operands2⟩ = 0 := by
  have hm := (uStoreEquivalentOpcode_ne_zero_iff E MI).1 h
  have hd := storeTable_disjoint E
  constructor
  · by_contra hne
    have hin := (uStoreEquivalentOpcode_ne_zero_iff E _).1 hne
    exact hd hin (uStoreEquivalentOpcode_inserted E MI hm)
  · by_contra hne
    have hin := (uStoreEquivalentOpcode_ne_zero_iff E _).1 hne
    exact hd hin (by simp [insertedOpcodes])

theorem uStoreEquivalentOpcode_of_inserted_witness :
    uStoreEquivalentOpcode sampleOpcodes ⟨103, [.reg 1, .reg 2, .imm 8, .reg 3]⟩ ≠ 0 ∧
    uStoreEquivalentOpcode sampleOpcodes
      ⟨uStoreEquivalentOpcode sampleOpcodes ⟨103, [.reg 1, .reg 2, .imm 8, .reg 3]⟩,
        [.reg 3, .imm 8, .reg 1, .reg 3]⟩ = 0 ∧
    uStoreEquivalentOpcode sampleOpcodes
      ⟨sampleOpcodes.CIncOffset, [.reg 2, .reg 3, .reg 3]⟩ = 0 :=
  ⟨by decide,
    uStoreEquivalentOpcode_of_inserted sampleOpcodes
      ⟨103, [.reg 1, .reg 2, .imm 8, .reg 3]⟩ [.reg 3, .imm 8, .reg 1, .reg 3]
      [.reg 2, .reg 3, .reg 3] (by decide)⟩

/-! ## Termination of the scan -/

theorem getOperand_cases (MI : MachineInstr) (i : Nat) :
    getOperand MI i = .ok (operand MI i) ∨ getOperand MI i = .error .operandOutOfRange := by
  by_cases h : i < MI.Operands.length
  · exact Or.inl (getOperand_ok MI i h)
  · right
    have hn : MI.Operands[i]? = none := List.getElem?_eq_none (by omega)
    simp [getOperand, hn]

theorem newStoreOffset_short (E : MipsOpcodes) (MI : MachineInstr) (I : Cursor)
    (h : ¬ 4 ≤ MI.Operands.length) :
    newStoreOffset E MI I = .error .operandOutOfRange := by
  have h3 : getOperand MI 3 = .error .operandOutOfRange := by
    have hn : MI.Operands[3]? = none := List.getElem?_eq_none (by omega)
    simp [getOperand, hn]
  unfold newStoreOffset
  rcases getOperand_cases MI 1 with h1 | h1 <;> rw [h1, h3] <;> rfl

theorem scanStep_short (E : MipsOpcodes) (bef tl : List MachineInstr)
    (MI : MachineInstr) (b : Bool) (hm : MI.Opcode ∈ storeTable E)
    (h : ¬ 4 ≤ MI.Operands.length) :
    scanStep E ⟨⟨bef, MI :: tl⟩, b⟩ = .error .operandOutOfRange := by
  have hne : uStoreEquivalentOpcode E MI ≠ 0 :=
    (uStoreEquivalentOpcode_ne_zero_iff E MI).2 hm
  simp only [scanStep, hne, ne_eq, not_false_eq_true, if_true]
  rw [newStoreOffset_short E MI _ h]
  rfl

/-- One iteration either stops on a fault of the instruction stream or leaves
one instruction fewer from the iterator on. -/
theorem scanStep_cases (E : MipsOpcodes) (s : ScanState) :
    scanStep E s = .error .iteratorOutOfRange ∨
    scanStep E s = .error .operandOutOfRange ∨
    ∃ s1, scanStep E s = .ok s1 ∧ s1.I.rest.length + 1 = s.I.rest.length := by
  obtain ⟨⟨bef, rest⟩, b⟩ := s
  cases rest with
  | nil => left; rfl
  | cons MI tl =>
    right
    by_cases hm : MI.Opcode ∈ storeTable E
    · by_cases h4 : 4 ≤ MI.Operands.length
      · right
        exact ⟨_, scanStep_matched E bef tl MI b hm h4, rfl⟩
      · left
        exact scanStep_short E bef tl MI b hm h4
    · right
      exact ⟨_, scanStep_unmatched E bef tl MI b hm, rfl⟩

theorem scanLoop_ne_outOfFuel (E : MipsOpcodes) :
    ∀ (fuel : Nat) (s : ScanState), s.I.rest.length < fuel →
      scanLoop E fuel s ≠ .error .outOfFuel := by
  intro fuel
  induction fuel with
  | zero => intro s h; simp at h
  | succ n ih =>
    intro s h
    unfold scanLoop
    split_ifs with hend
    · rcases scanStep_cases E s with h1 | h1 | ⟨s1, h1, hlen⟩
      · rw [h1]; simp
      · rw [h1]; simp
      · rw [h1]
        exact ih s1 (by omega)
    · simp

theorem scanBlocks_ne_outOfFuel (E : MipsOpcodes) (fuel : Nat) :
    ∀ (MF : MachineFunction) (b : Bool), (∀ MBB ∈ MF, MBB.length < fuel) →
      scanBlocks E fuel MF b ≠ .error .outOfFuel := by
  intro MF
  induction MF with
  | nil => intro b _; simp [scanBlocks]
  | cons MBB MBBs ih =>
    intro b hf
    have h1 := scanLoop_ne_outOfFuel E fuel ⟨Cursor.begin MBB, b⟩
      (hf MBB (List.mem_cons_self _ _))
    unfold scanBlocks
    cases hl : scanLoop E fuel ⟨Cursor.begin MBB, b⟩ with
    | error e =>
      intro he
      rw [hl] at h1
      simp only [Except.error.injEq] at he
      exact h1 (by rw [he])
    | ok s1 =>
      have h2 := ih s1.IsStoreReplaced (fun x hx => hf x (List.mem_cons_of_mem _ hx))
      cases hb : scanBlocks E fuel MBBs s1.IsStoreReplaced with
      | error e =>
        intro he
        simp only [hb, Except.error.injEq] at he
        exact h2 (by rw [hb, he])
      | ok r =>
        simp only [hb]
        simp

/-- C19: with a loop budget above every block length the run never exhausts
the budget, whatever the instructions are; it returns for a function whose
matched instructions have the operands 0 to 3; and every iteration that
completes leaves exactly one instruction fewer from the iterator on, although
a match inserts two instructions and steps the iterator back. -/
theorem runOnMachineFunction_terminates (E : MipsOpcodes) (fuel : Nat)
    (MF : MachineFunction) (hfuel : ∀ MBB ∈ MF, MBB.length < fuel) :
    runOnMachineFunction E fuel MF ≠ .error .outOfFuel ∧
    ((∀ MBB ∈ MF, WellShaped E MBB) →
      ∃ r MF1, runOnMachineFunction E fuel MF = .ok (r, MF1)) ∧
    (∀ s s1 : ScanState, scanStep E s = .ok s1 →
      s1.I.rest.length + 1 = s.I.rest.length) := by
  refine ⟨scanBlocks_ne_outOfFuel E fuel MF false hfuel, ?_, ?_⟩
  · intro hshape
    exact ⟨_, _, scanBlocks_ok E fuel MF false hshape hfuel⟩
  · intro s s1 h
    rcases scanStep_cases E s with h1 | h1 | ⟨s2, h1, hlen⟩
    · rw [h1] at h; simp at h
    · rw [h1] at h; simp at h
    · rw [h1] at h
      simp only [Except.ok.injEq] at h
      rw [← h]
      exact hlen

theorem runOnMachineFunction_terminates_witness :
    (∀ MBB ∈ sampleFunction, MBB.length < 4) ∧
    (runOnMachineFunction sampleOpcodes 4 sampleFunction ≠ .error .outOfFuel ∧
    ((∀ MBB ∈ sampleFunction, WellShaped sampleOpcodes MBB) →
      ∃ r MF1, runOnMachineFunction sampleOpcodes 4 sampleFunction = .ok (r, MF1)) ∧
    (∀ s s1 : ScanState, scanStep sampleOpcodes s = .ok s1 →
      s1.I.rest.length + 1 = s.I.rest.length)) :=
  ⟨by decide, runOnMachineFunction_terminates sampleOpcodes 4 sampleFunction (by decide)⟩

/-! ## The iterator across a removal -/

theorem scanTrace_ok (E : MipsOpcodes) :
    ∀ (rest bef : List MachineInstr) (b : Bool) (fuel : Nat),
      WellShaped E rest → rest.length < fuel →
      scanTrace E fuel ⟨⟨bef, rest⟩, b⟩ = rest := by
  intro rest
  induction rest with
  | nil =>
    intro bef b fuel _ hf
    cases fuel with
    | zero => simp at hf
    | succ n => simp [scanTrace, Cursor.notAtEnd]
  | cons MI tl ih =>
    intro bef b fuel hw hf
    cases fuel with
    | zero => simp at hf
    | succ n =>
      have hw1 : WellShaped E tl := fun x hx => hw x (List.mem_cons_of_mem _ hx)
      have hf1 : tl.length < n := by simpa using hf
      by_cases hm : MI.Opcode ∈ storeTable E
      · have h4 := hw MI (List.mem_cons_self _ _) hm
        simp only [scanTrace, Cursor.notAtEnd, List.isEmpty_cons, Bool.not_false, if_true,
          List.head?_cons, scanStep_matched E bef tl MI b hm h4]
        rw [ih _ _ n hw1 hf1]
      · simp only [scanTrace, Cursor.notAtEnd, List.isEmpty_cons, Bool.not_false, if_true,
          List.head?_cons, scanStep_unmatched E bef tl MI b hm]
        rw [ih _ _ n hw1 hf1]

/-- C20: for a matched instruction `MI` at any position (instructions `bef`
before it, `tl` after it, either possibly empty), the erase leaves the
iterator on the successor of `MI`, the step back succeeds and lands on the
uninitialized store just inserted, with the increment right before it, and the
advance that follows reaches the instructions `tl` that followed `MI`; and on
a whole block the iterations dereference exactly the instructions of the
original block, each once, in program order. -/
theorem scan_cursor_valid (E : MipsOpcodes) (bef tl : List MachineInstr)
    (MI : MachineInstr) (b : Bool) (MBB : MachineBasicBlock) (fuel : Nat)
    (hm : uStoreEquivalentOpcode E MI ≠ 0) (h4 : 4 ≤ MI.Operands.length)
    (hshape : WellShaped E MBB) (hfuel : MBB.length < fuel) :
    (∃ Inc St I1 I2 I3 I4 I5,
      newStoreOffset E MI ⟨bef, MI :: tl⟩ = .ok (Inc, I1) ∧
      newUninitializedStore MI I1 (uStoreEquivalentOpcode E MI) = .ok (St, I2) ∧
      I2.rest = MI :: tl ∧
      I2.erase = .ok I3 ∧ I3.rest = tl ∧
      I3.dec = .ok I4 ∧ I4.rest = St :: tl ∧ I4.before = Inc :: bef ∧
      I4.inc = .ok I5 ∧ I5.rest = tl ∧
      I5.block = bef.reverse ++ [Inc, St] ++ tl ∧
      scanStep E ⟨⟨bef, MI :: tl⟩, b⟩ = .ok ⟨I5, true⟩) ∧
    scanTrace E fuel ⟨Cursor.begin MBB, b⟩ = MBB := by
  have hin := (uStoreEquivalentOpcode_ne_zero_iff E MI).1 hm
  refine ⟨⟨expectedIncrement E MI, expectedStore E MI, _, _, _, _, _,
    newStoreOffset_ok E MI _ h4, newUninitializedStore_ok MI _ _ h4, rfl, rfl, rfl, rfl,
    rfl, rfl, rfl, rfl, ?_, scanStep_matched E bef tl MI b hin h4⟩, ?_⟩
  · simp [Cursor.block, Cursor.insertBefore, expectedStore]
  · exact scanTrace_ok E MBB [] b fuel hshape hfuel

theorem scan_cursor_valid_witness :
    uStoreEquivalentOpcode sampleOpcodes ⟨101, [.reg 1, .reg 2, .imm 8, .reg 3]⟩ ≠ 0 ∧
    4 ≤ (⟨101, [.reg 1, .reg 2, .imm 8, .reg 3]⟩ : MachineInstr).Operands.length ∧
    WellShaped sampleOpcodes [⟨101, [.reg 1, .reg 2, .imm 8, .reg 3]⟩, ⟨7, []⟩] ∧
    [(⟨101, [.reg 1, .reg 2, .imm 8, .reg 3]⟩ : MachineInstr), ⟨7, []⟩].length < 3 ∧
    ((∃ Inc St I1 I2 I3 I4 I5,
      newStoreOffset sampleOpcodes ⟨101, [.reg 1, .reg 2, .imm 8, .reg 3]⟩
        ⟨[], ⟨101, [.reg 1, .reg 2, .imm 8, .reg 3]⟩ :: []⟩ = .ok (Inc, I1) ∧
      newUninitializedStore ⟨101, [.reg 1, .reg 2, .imm 8, .reg 3]⟩ I1
        (uStoreEquivalentOpcode sampleOpcodes ⟨101, [.reg 1, .reg 2, .imm 8, .reg 3]⟩)
        = .ok (St, I2) ∧
      I2.rest = ⟨101, [.reg 1, .reg 2, .imm 8, .reg 3]⟩ :: [] ∧
      I2.erase = .ok I3 ∧ I3.rest = [] ∧
      I3.dec = .ok I4 ∧ I4.rest = St :: [] ∧ I4.before = Inc :: [] ∧
      I4.inc = .ok I5 ∧ I5.rest = [] ∧
      I5.block = ([] : List MachineInstr).reverse ++ [Inc, St] ++ [] ∧
      scanStep sampleOpcodes
        ⟨⟨[], ⟨101, [.reg 1, .reg 2, .imm 8, .reg 3]⟩ :: []⟩, false⟩ = .ok ⟨I5, true⟩) ∧
    scanTrace sampleOpcodes 3
        ⟨Cursor.begin [⟨101, [.reg 1, .reg 2, .imm 8, .reg 3]⟩, ⟨7, []⟩], false⟩
      = [⟨101, [.reg 1, .reg 2, .imm 8, .reg 3]⟩, ⟨7, []⟩]) :=
  ⟨by decide, by decide, by unfold WellShaped; decide, by decide,
    scan_cursor_valid sampleOpcodes [] [] ⟨101, [.reg 1, .reg 2, .imm 8, .reg 3]⟩ false
      [⟨101, [.reg 1, .reg 2, .imm 8, .reg 3]⟩, ⟨7, []⟩] 3
      (by decide) (by decide) (by unfold WellShaped; decide) (by decide)⟩

end UStore
